import Mathlib

/-!
# Verification of the `money-to-prisoners-noms-ops` search-form and export logic

This file gives a shallow embedding of the data transformations of the
staff-facing "Money to Prisoners" application:

* the query-parameter manipulation of the V2 search-form mixins
  (`security/forms/object_list.py`): prison selector, amount pattern and
  payment-method translation;
* the form cleaning routines of those mixins (prison fields, date ranges);
* the notification date-grouping and aggregation routines
  (`group_events_by_date`, `summarise_date_group`);
* the spreadsheet export escaping (`security/export.py`);
* the settings views (`settings/views.py`).

Python dictionaries (`query_data`, `cleaned_data`, the POST data) are
embedded as insertion-ordered association lists; Python sets as `Finset`;
dates as a record of year/month/day compared lexicographically, as Python
`datetime.date` does.
-/

/-- Calendar date, as Python's `datetime.date`: ordered lexicographically
by (year, month, day). -/
structure Date where
  year : Nat
  month : Nat
  day : Nat
deriving DecidableEq

/-- Python's `date` comparison is lexicographic on (year, month, day). -/
def Date.lt (a b : Date) : Prop :=
  a.year < b.year
    ∨ (a.year = b.year ∧ (a.month < b.month ∨ (a.month = b.month ∧ a.day < b.day)))

instance (a b : Date) : Decidable (Date.lt a b) := by
  unfold Date.lt; infer_instance

/-- A timestamp, as Python's `datetime.datetime`; `.date()` projects the
`date` field. -/
structure DateTime where
  date : Date
  hour : Nat
  minute : Nat
  second : Nat
deriving DecidableEq

/-- A value stored in a Django form's `query_data` / `cleaned_data`
dictionary: the forms only store strings, lists of strings and small
integers. -/
inductive QV where
  | s (v : String)
  | list (v : List String)
  | int (v : Nat)
deriving DecidableEq

/-- Python truthiness of a form value: empty strings, empty lists and zero
are falsy. -/
def qvTruthy : QV → Bool
  | QV.s v => v ≠ ""
  | QV.list v => v ≠ []
  | QV.int v => v ≠ 0

/-- Truthiness of `dict.get(key)`: a missing key yields `None`, which is
falsy. -/
def qvOptTruthy : Option QV → Bool
  | some v => qvTruthy v
  | none => false

/-- A Python dict with string keys, embedded as an insertion-ordered
association list (real dicts never hold a key twice). -/
abbrev QD := List (String × QV)

/-- `dict[key]` lookup (first matching key). -/
def qdLookup : QD → String → Option QV
  | [], _ => none
  | (k', v) :: rest, k => if k' = k then some v else qdLookup rest k

/-- The removal part of `dict.pop(key, default)`: drop every binding of the
key (a real dict holds it at most once). -/
def qdErase : QD → String → QD
  | [], _ => []
  | (k', v) :: rest, k => if k' = k then qdErase rest k else (k', v) :: qdErase rest k

/-- `dict[key] = value`: replace an existing binding in place, otherwise
append at the end (Python 3.7+ dicts preserve insertion order). -/
def qdSet : QD → String → QV → QD
  | [], k, v => [(k, v)]
  | (k', v') :: rest, k, v =>
      if k' = k then (k, v) :: rest else (k', v') :: qdSet rest k v

theorem qdLookup_cons (a : String) (b : QV) (rest : QD) (k : String) :
    qdLookup ((a, b) :: rest) k = if a = k then some b else qdLookup rest k := rfl

theorem qdLookup_erase (qd : QD) (k k' : String) :
    qdLookup (qdErase qd k) k' = if k' = k then none else qdLookup qd k' := by
  induction qd with
  | nil => simp [qdErase, qdLookup]
  | cons kv rest ih =>
      obtain ⟨a, b⟩ := kv
      by_cases hak : a = k <;> by_cases hak' : a = k' <;> by_cases hk : k' = k <;>
        simp_all [qdErase, qdLookup_cons]

theorem qdLookup_set (qd : QD) (k k' : String) (v : QV) :
    qdLookup (qdSet qd k v) k' = if k' = k then some v else qdLookup qd k' := by
  induction qd with
  | nil =>
      by_cases hk : k' = k
      · simp_all [qdSet, qdLookup_cons]
      · simp [qdSet, qdLookup_cons, qdLookup, hk, show ¬k = k' from fun h => hk h.symm]
  | cons kv rest ih =>
      obtain ⟨a, b⟩ := kv
      by_cases hak : a = k <;> by_cases hak' : a = k' <;> by_cases hk : k' = k <;>
        simp_all [qdSet, qdLookup_cons]

/-! ## C3: `PrisonSelectorSearchFormMixin._update_prison_in_query_data` -/

/-- A prison record as the view sees it (`request.user_prisons` items);
only the `nomis_id` key is read here. -/
structure Prison where
  nomis_id : String
deriving DecidableEq

/-- `PRISON_SELECTOR_USER_PRISONS_CHOICE_VALUE`. -/
def PRISON_SELECTOR_USER_PRISONS_CHOICE_VALUE : String := "mine"

/-- `PRISON_SELECTOR_EXACT_PRISON_CHOICE_VALUE`. -/
def PRISON_SELECTOR_EXACT_PRISON_CHOICE_VALUE : String := "exact"

/-- `PRISON_SELECTOR_ALL_PRISONS_CHOICE_VALUE`. -/
def PRISON_SELECTOR_ALL_PRISONS_CHOICE_VALUE : String := "all"

/-- The prison list obtained by `query_data.pop('prison', [])`. -/
def submittedPrisons (qd : QD) : List String :=
  match qdLookup qd "prison" with
  | some (QV.list ps) => ps
  | _ => []

/-- `PrisonSelectorSearchFormMixin._update_prison_in_query_data`:
pops `prison_selector` and `prison`; for selector `'mine'` replaces the
prison filter with the user's prisons (when any); for `'exact'` or a falsy
selector restores the submitted prison list; otherwise leaves no prison
filter. -/
def update_prison_in_query_data (user_prisons : List Prison) (qd : QD) : QD :=
  let prison_selector := qdLookup qd "prison_selector"
  let prisons := submittedPrisons qd
  let qd1 := qdErase (qdErase qd "prison_selector") "prison"
  if prison_selector = some (QV.s PRISON_SELECTOR_USER_PRISONS_CHOICE_VALUE) then
    if user_prisons ≠ [] then
      qdSet qd1 "prison" (QV.list (user_prisons.map Prison.nomis_id))
    else qd1
  else if prison_selector = some (QV.s PRISON_SELECTOR_EXACT_PRISON_CHOICE_VALUE)
      ∨ qvOptTruthy prison_selector = false then
    qdSet qd1 "prison" (QV.list prisons)
  else qd1

/-- C3: with parameter manipulation allowed, `prison_selector` is removed
from the API parameters; selector `'mine'` with user prisons sends their
`nomis_id`s, `'mine'` without prisons sends no prison filter, `'exact'` or a
missing selector keeps the submitted prison list, and `'all'` sends no
prison filter. -/
theorem claim_C3 (up : List Prison) (qd : QD) :
    qdLookup (update_prison_in_query_data up qd) "prison_selector" = none
    ∧ (qdLookup qd "prison_selector" = some (QV.s "mine") → up ≠ [] →
        qdLookup (update_prison_in_query_data up qd) "prison"
          = some (QV.list (up.map Prison.nomis_id)))
    ∧ (qdLookup qd "prison_selector" = some (QV.s "mine") → up = [] →
        qdLookup (update_prison_in_query_data up qd) "prison" = none)
    ∧ ((qdLookup qd "prison_selector" = some (QV.s "exact")
          ∨ qdLookup qd "prison_selector" = none) →
        qdLookup (update_prison_in_query_data up qd) "prison"
          = some (QV.list (submittedPrisons qd)))
    ∧ (qdLookup qd "prison_selector" = some (QV.s "all") →
        qdLookup (update_prison_in_query_data up qd) "prison" = none) := by
  unfold update_prison_in_query_data
  refine ⟨?_, ?_, ?_, ?_, ?_⟩
  · by_cases h1 : qdLookup qd "prison_selector"
        = some (QV.s PRISON_SELECTOR_USER_PRISONS_CHOICE_VALUE)
    · by_cases h2 : up = [] <;>
        simp [h1, h2, qdLookup_set, qdLookup_erase]
    · by_cases h3 : qdLookup qd "prison_selector"
            = some (QV.s PRISON_SELECTOR_EXACT_PRISON_CHOICE_VALUE)
          ∨ qvOptTruthy (qdLookup qd "prison_selector") = false <;>
        simp [h1, h3, qdLookup_set, qdLookup_erase]
  · intro hsel hup
    rw [hsel]
    simp [PRISON_SELECTOR_USER_PRISONS_CHOICE_VALUE, hup, qdLookup_set]
  · intro hsel hup
    rw [hsel]
    simp [PRISON_SELECTOR_USER_PRISONS_CHOICE_VALUE, hup, qdLookup_erase]
  · intro hsel
    rcases hsel with hsel | hsel <;> rw [hsel] <;>
      simp [PRISON_SELECTOR_USER_PRISONS_CHOICE_VALUE,
        PRISON_SELECTOR_EXACT_PRISON_CHOICE_VALUE, qvOptTruthy, qvTruthy, qdLookup_set]
  · intro hsel
    rw [hsel]
    simp [PRISON_SELECTOR_USER_PRISONS_CHOICE_VALUE,
      PRISON_SELECTOR_EXACT_PRISON_CHOICE_VALUE,
      PRISON_SELECTOR_ALL_PRISONS_CHOICE_VALUE, qvOptTruthy, qvTruthy, qdLookup_erase]

/-- Witness for C3 at a concrete form: selector `'mine'` with one user
prison `AAA` replaces a submitted prison list. -/
theorem claim_C3_witness :
    qdLookup
      (update_prison_in_query_data [⟨"AAA"⟩]
        [("prison_selector", QV.s "mine"), ("prison", QV.list ["BBB"])])
      "prison" = some (QV.list ["AAA"]) :=
  (claim_C3 [⟨"AAA"⟩] [("prison_selector", QV.s "mine"), ("prison", QV.list ["BBB"])]).2.1
    (by decide) (by decide)

/-! ## Decimal rendering helpers

Model of C's / Python's decimal integer formatting (`'%02d' % n`,
`strftime` zero padding): our own digit renderer, so that we can prove
facts about the first character of the output. -/

/-- The decimal digit character for `d < 10`. -/
def decimalDigitChar (d : Nat) : Char := Char.ofNat (48 + d)

/-- Decimal digits of a natural number, most significant first. -/
def natDigits (n : Nat) : List Char :=
  if n < 10 then [decimalDigitChar n]
  else natDigits (n / 10) ++ [decimalDigitChar (n % 10)]
termination_by n
decreasing_by
  simp_wf
  exact Nat.div_lt_self (by omega) (by omega)

/-- Decimal rendering of a natural number. -/
def natToString (n : Nat) : String := String.mk (natDigits n)

/-- `'%02d' % n`: zero-pad to two digits. -/
def pad2 (n : Nat) : String :=
  if n < 10 then "0" ++ natToString n else natToString n

/-- `strftime`'s `%Y`: zero-pad the year to four digits. -/
def pad4 (n : Nat) : String :=
  if n < 10 then "000" ++ natToString n
  else if n < 100 then "00" ++ natToString n
  else if n < 1000 then "0" ++ natToString n
  else natToString n

/-! ## C4: `AmountSearchFormMixin._update_amounts_in_query_data` -/

/-- The `AmountPattern` enumeration from `security.forms.object_base`
(not under `src/`); its member names are exactly the ones used by
`_update_amounts_in_query_data` and `AmountPattern.get_choices`. -/
inductive AmountPattern where
  | not_integral
  | not_multiple_5
  | not_multiple_10
  | gte_100
  | exact
  | pence
deriving DecidableEq

/-- `AmountPattern[name]`: Python `Enum` lookup by member name; raises
`KeyError` (here: `none`) for any other string. -/
def AmountPattern.fromName (s : String) : Option AmountPattern :=
  if s = "not_integral" then some AmountPattern.not_integral
  else if s = "not_multiple_5" then some AmountPattern.not_multiple_5
  else if s = "not_multiple_10" then some AmountPattern.not_multiple_10
  else if s = "gte_100" then some AmountPattern.gte_100
  else if s = "exact" then some AmountPattern.exact
  else if s = "pence" then some AmountPattern.pence
  else none

/-- The amount pattern of a form's query data: `AmountPattern[...]` applied
to the popped `amount_pattern` value (a non-string raises `KeyError` too). -/
def patternOf (qd : QD) : Option AmountPattern :=
  match qdLookup qd "amount_pattern" with
  | some (QV.s s) => AmountPattern.fromName s
  | _ => none

/-- The string handed to `parse_amount`: `amount_exact or ''`. -/
def exactValue (qd : QD) : String :=
  match qdLookup qd "amount_exact" with
  | some (QV.s s) => s
  | _ => ""

/-- The popped `amount_pence` value, when it is an integer. -/
def penceValue (qd : QD) : Option Nat :=
  match qdLookup qd "amount_pence" with
  | some (QV.int n) => some n
  | _ => none

/-- `AmountSearchFormMixin._update_amounts_in_query_data`.  `parse_amount`
lives in `security.forms.object_base` (not under `src/`) and is kept
abstract as a parameter. On an unrecognised pattern the function returns
after popping only `amount_pattern`. -/
def update_amounts_in_query_data (parse_amount : String → String) (qd : QD) : QD :=
  let qd1 := qdErase qd "amount_pattern"
  match patternOf qd with
  | none => qd1
  | some p =>
      let amount_exact := exactValue qd1
      let amount_pence := penceValue qd1
      let qd2 := qdErase (qdErase qd1 "amount_exact") "amount_pence"
      match p with
      | AmountPattern.not_integral => qdSet qd2 "exclude_amount__endswith" (QV.s "00")
      | AmountPattern.not_multiple_5 => qdSet qd2 "exclude_amount__regex" (QV.s "(500|000)$")
      | AmountPattern.not_multiple_10 => qdSet qd2 "exclude_amount__endswith" (QV.s "000")
      | AmountPattern.gte_100 => qdSet qd2 "amount__gte" (QV.s "10000")
      | AmountPattern.exact => qdSet qd2 "amount" (QV.s (parse_amount amount_exact))
      | AmountPattern.pence =>
          qdSet qd2 "amount__endswith"
            (QV.s (match amount_pence with
                   | none => ""
                   | some n => pad2 n))

/-- The API amount filters that `_update_amounts_in_query_data` can add. -/
def amountFilterKeys : List String :=
  ["exclude_amount__endswith", "exclude_amount__regex", "amount__gte",
   "amount", "amount__endswith"]

/-- The API key that each recognised amount pattern writes. -/
def amountFilterKeyOf : AmountPattern → String
  | AmountPattern.not_integral => "exclude_amount__endswith"
  | AmountPattern.not_multiple_5 => "exclude_amount__regex"
  | AmountPattern.not_multiple_10 => "exclude_amount__endswith"
  | AmountPattern.gte_100 => "amount__gte"
  | AmountPattern.exact => "amount"
  | AmountPattern.pence => "amount__endswith"

/-- The value that each recognised amount pattern writes. -/
def amountFilterValue (parse_amount : String → String) (qd : QD) : AmountPattern → QV
  | AmountPattern.not_integral => QV.s "00"
  | AmountPattern.not_multiple_5 => QV.s "(500|000)$"
  | AmountPattern.not_multiple_10 => QV.s "000"
  | AmountPattern.gte_100 => QV.s "10000"
  | AmountPattern.exact => QV.s (parse_amount (exactValue qd))
  | AmountPattern.pence =>
      QV.s (match penceValue qd with
            | none => ""
            | some n => pad2 n)

theorem exactValue_erase_pattern (qd : QD) :
    exactValue (qdErase qd "amount_pattern") = exactValue qd := by
  simp [exactValue, qdLookup_erase]

theorem penceValue_erase_pattern (qd : QD) :
    penceValue (qdErase qd "amount_pattern") = penceValue qd := by
  simp [penceValue, qdLookup_erase]

/-- Full characterisation of the query data after
`_update_amounts_in_query_data`. -/
theorem update_amounts_lookup (parse_amount : String → String) (qd : QD) (k : String) :
    qdLookup (update_amounts_in_query_data parse_amount qd) k =
      match patternOf qd with
      | none => if k = "amount_pattern" then none else qdLookup qd k
      | some p =>
          if k = amountFilterKeyOf p then some (amountFilterValue parse_amount qd p)
          else if k = "amount_pattern" ∨ k = "amount_exact" ∨ k = "amount_pence" then none
          else qdLookup qd k := by
  unfold update_amounts_in_query_data
  rcases hpat : patternOf qd with _ | p
  · simp [qdLookup_erase]
  · cases p <;>
      · simp only [qdLookup_set, qdLookup_erase, amountFilterKeyOf, amountFilterValue,
          exactValue_erase_pattern, penceValue_erase_pattern]
        split_ifs <;> simp_all

/-- C4: for a valid amount search form (no amount API filter already
present, and `amount_exact`/`amount_pence` only present for a recognised
pattern, as cleaning guarantees), parameter manipulation removes
`amount_pattern`, `amount_exact` and `amount_pence` and adds exactly the
one amount filter determined by the pattern; an unrecognised or empty
pattern adds none. -/
theorem claim_C4 (parse_amount : String → String) (qd : QD)
    (h1 : ∀ fk ∈ amountFilterKeys, qdLookup qd fk = none)
    (h2 : patternOf qd = none →
      qdLookup qd "amount_exact" = none ∧ qdLookup qd "amount_pence" = none) :
    qdLookup (update_amounts_in_query_data parse_amount qd) "amount_pattern" = none
    ∧ qdLookup (update_amounts_in_query_data parse_amount qd) "amount_exact" = none
    ∧ qdLookup (update_amounts_in_query_data parse_amount qd) "amount_pence" = none
    ∧ (patternOf qd = some AmountPattern.not_integral →
        qdLookup (update_amounts_in_query_data parse_amount qd) "exclude_amount__endswith"
          = some (QV.s "00"))
    ∧ (patternOf qd = some AmountPattern.not_multiple_5 →
        qdLookup (update_amounts_in_query_data parse_amount qd) "exclude_amount__regex"
          = some (QV.s "(500|000)$"))
    ∧ (patternOf qd = some AmountPattern.not_multiple_10 →
        qdLookup (update_amounts_in_query_data parse_amount qd) "exclude_amount__endswith"
          = some (QV.s "000"))
    ∧ (patternOf qd = some AmountPattern.gte_100 →
        qdLookup (update_amounts_in_query_data parse_amount qd) "amount__gte"
          = some (QV.s "10000"))
    ∧ (patternOf qd = some AmountPattern.exact →
        qdLookup (update_amounts_in_query_data parse_amount qd) "amount"
          = some (QV.s (parse_amount (exactValue qd))))
    ∧ (patternOf qd = some AmountPattern.pence → ∀ n, penceValue qd = some n →
        qdLookup (update_amounts_in_query_data parse_amount qd) "amount__endswith"
          = some (QV.s (pad2 n)))
    ∧ (∀ fk ∈ amountFilterKeys,
        (∀ p, patternOf qd = some p → fk ≠ amountFilterKeyOf p) →
        qdLookup (update_amounts_in_query_data parse_amount qd) fk = none) := by
  refine ⟨?_, ?_, ?_, ?_, ?_, ?_, ?_, ?_, ?_, ?_⟩
  · rcases hpat : patternOf qd with _ | p
    · simp [update_amounts_lookup, hpat]
    · cases p <;> simp [update_amounts_lookup, hpat, amountFilterKeyOf]
  · rcases hpat : patternOf qd with _ | p
    · simp [update_amounts_lookup, hpat, (h2 hpat).1]
    · cases p <;> simp [update_amounts_lookup, hpat, amountFilterKeyOf]
  · rcases hpat : patternOf qd with _ | p
    · simp [update_amounts_lookup, hpat, (h2 hpat).2]
    · cases p <;> simp [update_amounts_lookup, hpat, amountFilterKeyOf]
  · intro hpat
    simp [update_amounts_lookup, hpat, amountFilterKeyOf, amountFilterValue]
  · intro hpat
    simp [update_amounts_lookup, hpat, amountFilterKeyOf, amountFilterValue]
  · intro hpat
    simp [update_amounts_lookup, hpat, amountFilterKeyOf, amountFilterValue]
  · intro hpat
    simp [update_amounts_lookup, hpat, amountFilterKeyOf, amountFilterValue]
  · intro hpat
    simp [update_amounts_lookup, hpat, amountFilterKeyOf, amountFilterValue]
  · intro hpat n hn
    simp [update_amounts_lookup, hpat, amountFilterKeyOf, amountFilterValue, hn]
  · intro fk hfk hcond
    have k1 := h1 "exclude_amount__endswith" (by simp [amountFilterKeys])
    have k2 := h1 "exclude_amount__regex" (by simp [amountFilterKeys])
    have k3 := h1 "amount__gte" (by simp [amountFilterKeys])
    have k4 := h1 "amount" (by simp [amountFilterKeys])
    have k5 := h1 "amount__endswith" (by simp [amountFilterKeys])
    rcases hpat : patternOf qd with _ | p
    · simp only [amountFilterKeys, List.mem_cons, List.not_mem_nil, or_false] at hfk
      rcases hfk with rfl | rfl | rfl | rfl | rfl <;>
        simp [update_amounts_lookup, hpat, k1, k2, k3, k4, k5]
    · have hne := hcond p hpat
      simp only [amountFilterKeys, List.mem_cons, List.not_mem_nil, or_false] at hfk
      rcases hfk with rfl | rfl | rfl | rfl | rfl <;> cases p <;>
        simp_all [update_amounts_lookup, hpat, amountFilterKeyOf, k1, k2, k3, k4, k5]

/-- Witness for C4: a form choosing the `pence` pattern with value 5 sends
only `amount__endswith = '05'`. -/
theorem claim_C4_witness :
    qdLookup
      (update_amounts_in_query_data id
        [("amount_pattern", QV.s "pence"), ("amount_pence", QV.int 5)])
      "amount__endswith" = some (QV.s (pad2 5)) :=
  (claim_C4 id [("amount_pattern", QV.s "pence"), ("amount_pence", QV.int 5)]
      (by decide) (by decide)).2.2.2.2.2.2.2.2.1 (by decide) 5 (by decide)

/-! ## C5: `PaymentMethodSearchFormMixin._update_payment_method_in_query_data` -/

/-- The `PaymentMethod` enumeration from `security.models` (not under
`src/`); its member names are exactly the ones `object_list.py` and
`export.py` use: `bank_transfer` (bank transfer), `online` (debit card)
and `cheque`. -/
inductive PaymentMethod where
  | bank_transfer
  | online
  | cheque
deriving DecidableEq

/-- `PaymentMethod[name]`: Python `Enum` lookup by member name. -/
def PaymentMethod.fromName (s : String) : Option PaymentMethod :=
  if s = "bank_transfer" then some PaymentMethod.bank_transfer
  else if s = "online" then some PaymentMethod.online
  else if s = "cheque" then some PaymentMethod.cheque
  else none

/-- `PAYMENT_METHOD_FIELDS_SCOPE`: the payment methods each form field
applies to. -/
def PAYMENT_METHOD_FIELDS_SCOPE (field_name : String) : List PaymentMethod :=
  if field_name = "payment_method" then
    [PaymentMethod.bank_transfer, PaymentMethod.online, PaymentMethod.cheque]
  else if field_name = "account_number" then [PaymentMethod.bank_transfer]
  else if field_name = "sort_code" then [PaymentMethod.bank_transfer]
  else if field_name = "card_number_last_digits" then [PaymentMethod.online]
  else []

/-- `payment_method in field.supported_payment_methods` (with `None` never
a member). -/
def pmInScope (pm : Option PaymentMethod) (field_name : String) : Bool :=
  match pm with
  | some m => decide (m ∈ PAYMENT_METHOD_FIELDS_SCOPE field_name)
  | none => false

/-- `PaymentMethod[query_data.get('payment_method', None)]`, with
`KeyError` giving `None`. -/
def paymentMethodOf (qd : QD) : Option PaymentMethod :=
  match qdLookup qd "payment_method" with
  | some (QV.s s) => PaymentMethod.fromName s
  | _ => none

/-- The loop of `_update_payment_method_in_query_data`: pop each form
field; keep non-empty values whose payment method is in the field's scope,
renamed to the API filter name. -/
def processPaymentFields (pm : Option PaymentMethod) :
    List (String × String) → QD → QD
  | [], qd => qd
  | (field_name, api_name) :: rest, qd =>
      let v := qdLookup qd field_name
      let qd1 := qdErase qd field_name
      match v with
      | some val =>
          if qvTruthy val && pmInScope pm field_name then
            processPaymentFields pm rest (qdSet qd1 api_name val)
          else processPaymentFields pm rest qd1
      | none => processPaymentFields pm rest qd1

/-- `PaymentMethodSearchFormMixin._update_payment_method_in_query_data`. -/
def update_payment_method_in_query_data (mapping : List (String × String)) (qd : QD) : QD :=
  processPaymentFields (paymentMethodOf qd) mapping qd

/-- The base `PAYMENT_METHOD_API_FIELDS_MAPPING` (used by
`DisbursementsFormV2`). -/
def PAYMENT_METHOD_API_FIELDS_MAPPING : List (String × String) :=
  [("payment_method", "method"), ("account_number", "account_number"),
   ("sort_code", "sort_code"), ("card_number_last_digits", "card_number_last_digits")]

/-- The override used by `SendersFormV2` and `CreditsFormV2`. -/
def SENDERS_PAYMENT_METHOD_API_FIELDS_MAPPING : List (String × String) :=
  [("payment_method", "source"), ("account_number", "sender_account_number"),
   ("sort_code", "sender_sort_code"), ("card_number_last_digits", "card_number_last_digits")]

/-- Two mapping entries touch four pairwise distinct dictionary keys. -/
def MappingDisjoint (x y : String × String) : Prop :=
  x.1 ≠ y.1 ∧ x.1 ≠ y.2 ∧ x.2 ≠ y.1 ∧ x.2 ≠ y.2

instance : DecidableRel MappingDisjoint := fun x y => by
  unfold MappingDisjoint; infer_instance

/-- The API filter name that the mapping gives a form field. -/
def apiNameIn (mapping : List (String × String)) (field_name : String) : String :=
  (List.lookup field_name mapping).getD field_name

/-- The value the loop leaves under a field's API filter name. -/
def paymentFieldResult (pm : Option PaymentMethod) (qd : QD) (f a : String) : Option QV :=
  match qdLookup qd f with
  | some val =>
      if qvTruthy val && pmInScope pm f then some val
      else if a = f then none else qdLookup qd a
  | none => if a = f then none else qdLookup qd a

theorem processPaymentFields_untouched (pm : Option PaymentMethod)
    (m : List (String × String)) (qd : QD) (k : String)
    (h : ∀ fa ∈ m, fa.1 ≠ k ∧ fa.2 ≠ k) :
    qdLookup (processPaymentFields pm m qd) k = qdLookup qd k := by
  induction m generalizing qd with
  | nil => rfl
  | cons fa rest ih =>
      obtain ⟨f, a⟩ := fa
      obtain ⟨hf, ha⟩ := h (f, a) (List.mem_cons_self _ _)
      have hrest : ∀ fa ∈ rest, fa.1 ≠ k ∧ fa.2 ≠ k :=
        fun fa hfa => h fa (List.mem_cons_of_mem _ hfa)
      simp only [processPaymentFields]
      rcases hv : qdLookup qd f with _ | val
      · dsimp only
        rw [ih _ hrest, qdLookup_erase, if_neg (fun hh => hf hh.symm)]
      · dsimp only
        by_cases hb : (qvTruthy val && pmInScope pm f) = true
        · rw [if_pos hb, ih _ hrest, qdLookup_set, if_neg (fun hh => ha hh.symm),
            qdLookup_erase, if_neg (fun hh => hf hh.symm)]
        · rw [if_neg hb, ih _ hrest, qdLookup_erase, if_neg (fun hh => hf hh.symm)]

theorem processPaymentFields_lookup (pm : Option PaymentMethod)
    (m : List (String × String)) (qd : QD) (f a : String)
    (hdisj : List.Pairwise MappingDisjoint m) (hmem : (f, a) ∈ m) :
    qdLookup (processPaymentFields pm m qd) a = paymentFieldResult pm qd f a := by
  induction m generalizing qd with
  | nil => cases hmem
  | cons fa rest ih =>
      obtain ⟨f0, a0⟩ := fa
      rw [List.pairwise_cons] at hdisj
      obtain ⟨hhead, htail⟩ := hdisj
      rcases List.mem_cons.mp hmem with heq | hmem'
      · obtain ⟨hf, ha⟩ := Prod.mk.injEq .. ▸ heq
        subst hf
        subst ha
        have hrest : ∀ fa ∈ rest, fa.1 ≠ a ∧ fa.2 ≠ a := by
          intro fa hfa
          obtain ⟨_, _, h3, h4⟩ := hhead fa hfa
          exact ⟨fun hh => h3 hh.symm, fun hh => h4 hh.symm⟩
        simp only [processPaymentFields, paymentFieldResult]
        rcases hv : qdLookup qd f with _ | val
        · dsimp only
          rw [processPaymentFields_untouched pm rest _ a hrest, qdLookup_erase]
        · dsimp only
          by_cases hb : (qvTruthy val && pmInScope pm f) = true
          · rw [if_pos hb, processPaymentFields_untouched pm rest _ a hrest,
              qdLookup_set, if_pos rfl, if_pos hb]
          · rw [if_neg hb, processPaymentFields_untouched pm rest _ a hrest,
              qdLookup_erase, if_neg hb]
      · obtain ⟨h1, h2, h3, h4⟩ := hhead (f, a) hmem'
        simp only [processPaymentFields]
        have stepEq : ∀ qd2 : QD,
            qdLookup qd2 f = qdLookup qd f → qdLookup qd2 a = qdLookup qd a →
            paymentFieldResult pm qd2 f a = paymentFieldResult pm qd f a := by
          intro qd2 e1 e2
          simp only [paymentFieldResult, e1, e2]
        rcases hv : qdLookup qd f0 with _ | val
        · dsimp only
          rw [ih _ htail hmem', stepEq]
          · rw [qdLookup_erase, if_neg (fun hh => h1 hh.symm)]
          · rw [qdLookup_erase, if_neg (fun hh => h2 hh.symm)]
        · dsimp only
          by_cases hb : (qvTruthy val && pmInScope pm f0) = true
          · rw [if_pos hb, ih _ htail hmem', stepEq]
            · rw [qdLookup_set, if_neg (fun hh => h3 hh.symm),
                qdLookup_erase, if_neg (fun hh => h1 hh.symm)]
            · rw [qdLookup_set, if_neg (fun hh => h4 hh.symm),
                qdLookup_erase, if_neg (fun hh => h2 hh.symm)]
          · rw [if_neg hb, ih _ htail hmem', stepEq]
            · rw [qdLookup_erase, if_neg (fun hh => h1 hh.symm)]
            · rw [qdLookup_erase, if_neg (fun hh => h2 hh.symm)]

theorem pmInScope_account_number (x : Option PaymentMethod) :
    pmInScope x "account_number" = true ↔ x = some PaymentMethod.bank_transfer := by
  rcases x with _ | m
  · decide
  · cases m <;> decide

theorem pmInScope_sort_code (x : Option PaymentMethod) :
    pmInScope x "sort_code" = true ↔ x = some PaymentMethod.bank_transfer := by
  rcases x with _ | m
  · decide
  · cases m <;> decide

theorem pmInScope_card (x : Option PaymentMethod) :
    pmInScope x "card_number_last_digits" = true ↔ x = some PaymentMethod.online := by
  rcases x with _ | m
  · decide
  · cases m <;> decide

theorem paymentFieldResult_iff (pm : Option PaymentMethod) (qd : QD)
    (f a : String) (meth : PaymentMethod)
    (hscope : ∀ x, pmInScope x f = true ↔ x = some meth)
    (ha : a = f ∨ qdLookup qd a = none) (v : QV) :
    paymentFieldResult pm qd f a = some v
      ↔ (qdLookup qd f = some v ∧ qvTruthy v = true ∧ pm = some meth) := by
  have hnone : (if a = f then none else qdLookup qd a) = (none : Option QV) := by
    rcases ha with h | h
    · simp [h]
    · by_cases haf : a = f <;> simp [haf, h]
  unfold paymentFieldResult
  rcases hval : qdLookup qd f with _ | val
  · dsimp only
    rw [hnone]
    simp
  · dsimp only
    by_cases hb : (qvTruthy val && pmInScope pm f) = true
    · rw [if_pos hb]
      rw [Bool.and_eq_true] at hb
      constructor
      · intro h
        injection h with h
        subst h
        exact ⟨rfl, hb.1, (hscope pm).mp hb.2⟩
      · intro ⟨h1, _, _⟩
        injection h1 with h1
        rw [h1]
    · rw [if_neg hb, hnone]
      constructor
      · intro h
        cases h
      · intro ⟨h1, h2, h3⟩
        injection h1 with h1
        subst h1
        exact absurd (Bool.and_eq_true .. ▸ ⟨h2, (hscope pm).mpr h3⟩) hb

/-- C5: for both forms' field mappings (provided the form's data does not
already use the renamed API filter keys), the API parameters contain a
non-empty `account_number` / `sort_code` / `card_number_last_digits` under
its mapped name exactly when that value was submitted non-empty and the
chosen payment method is in the field's scope: bank transfer for account
number and sort code, debit card (`online`) for the card digits. -/
theorem claim_C5 (mapping : List (String × String)) (qd : QD)
    (hm : mapping = PAYMENT_METHOD_API_FIELDS_MAPPING
        ∨ mapping = SENDERS_PAYMENT_METHOD_API_FIELDS_MAPPING)
    (hvf : qdLookup qd "sender_account_number" = none
        ∧ qdLookup qd "sender_sort_code" = none) :
    (∀ v, qdLookup (update_payment_method_in_query_data mapping qd)
          (apiNameIn mapping "account_number") = some v
        ↔ (qdLookup qd "account_number" = some v ∧ qvTruthy v = true
            ∧ paymentMethodOf qd = some PaymentMethod.bank_transfer))
    ∧ (∀ v, qdLookup (update_payment_method_in_query_data mapping qd)
          (apiNameIn mapping "sort_code") = some v
        ↔ (qdLookup qd "sort_code" = some v ∧ qvTruthy v = true
            ∧ paymentMethodOf qd = some PaymentMethod.bank_transfer))
    ∧ (∀ v, qdLookup (update_payment_method_in_query_data mapping qd)
          (apiNameIn mapping "card_number_last_digits") = some v
        ↔ (qdLookup qd "card_number_last_digits" = some v ∧ qvTruthy v = true
            ∧ paymentMethodOf qd = some PaymentMethod.online)) := by
  rcases hm with rfl | rfl
  · refine ⟨fun v => ?_, fun v => ?_, fun v => ?_⟩
    · rw [show apiNameIn PAYMENT_METHOD_API_FIELDS_MAPPING "account_number"
          = "account_number" from rfl,
        update_payment_method_in_query_data,
        processPaymentFields_lookup _ _ _ "account_number" "account_number"
          (by decide) (by decide)]
      exact paymentFieldResult_iff _ _ _ _ _ pmInScope_account_number (Or.inl rfl) v
    · rw [show apiNameIn PAYMENT_METHOD_API_FIELDS_MAPPING "sort_code"
          = "sort_code" from rfl,
        update_payment_method_in_query_data,
        processPaymentFields_lookup _ _ _ "sort_code" "sort_code"
          (by decide) (by decide)]
      exact paymentFieldResult_iff _ _ _ _ _ pmInScope_sort_code (Or.inl rfl) v
    · rw [show apiNameIn PAYMENT_METHOD_API_FIELDS_MAPPING "card_number_last_digits"
          = "card_number_last_digits" from rfl,
        update_payment_method_in_query_data,
        processPaymentFields_lookup _ _ _ "card_number_last_digits" "card_number_last_digits"
          (by decide) (by decide)]
      exact paymentFieldResult_iff _ _ _ _ _ pmInScope_card (Or.inl rfl) v
  · refine ⟨fun v => ?_, fun v => ?_, fun v => ?_⟩
    · rw [show apiNameIn SENDERS_PAYMENT_METHOD_API_FIELDS_MAPPING "account_number"
          = "sender_account_number" from rfl,
        update_payment_method_in_query_data,
        processPaymentFields_lookup _ _ _ "account_number" "sender_account_number"
          (by decide) (by decide)]
      exact paymentFieldResult_iff _ _ _ _ _ pmInScope_account_number (Or.inr hvf.1) v
    · rw [show apiNameIn SENDERS_PAYMENT_METHOD_API_FIELDS_MAPPING "sort_code"
          = "sender_sort_code" from rfl,
        update_payment_method_in_query_data,
        processPaymentFields_lookup _ _ _ "sort_code" "sender_sort_code"
          (by decide) (by decide)]
      exact paymentFieldResult_iff _ _ _ _ _ pmInScope_sort_code (Or.inr hvf.2) v
    · rw [show apiNameIn SENDERS_PAYMENT_METHOD_API_FIELDS_MAPPING "card_number_last_digits"
          = "card_number_last_digits" from rfl,
        update_payment_method_in_query_data,
        processPaymentFields_lookup _ _ _ "card_number_last_digits" "card_number_last_digits"
          (by decide) (by decide)]
      exact paymentFieldResult_iff _ _ _ _ _ pmInScope_card (Or.inl rfl) v

/-- Witness for C5: a bank-transfer search with a non-empty account number
is sent as `sender_account_number` by the senders form mapping. -/
theorem claim_C5_witness :
    qdLookup
      (update_payment_method_in_query_data SENDERS_PAYMENT_METHOD_API_FIELDS_MAPPING
        [("payment_method", QV.s "bank_transfer"), ("account_number", QV.s "12345678")])
      "sender_account_number" = some (QV.s "12345678") :=
  ((claim_C5 SENDERS_PAYMENT_METHOD_API_FIELDS_MAPPING
      [("payment_method", QV.s "bank_transfer"), ("account_number", QV.s "12345678")]
      (Or.inr rfl) (by decide)).1 (QV.s "12345678")).mpr
    ⟨by decide, by decide, by decide⟩

/-! ## C6: `PrisonSelectorSearchFormMixin._clean_prison_fields` -/

/-- A validation error added by `Form.add_error`: field, error code and
message. -/
structure FieldError where
  field : String
  code : String
  message : String
deriving DecidableEq

/-- Django's default `required` error message for a form field
(`self.fields['prison'].error_messages['required']`). -/
def REQUIRED_ERROR_MSG : String := "This field is required."

/-- `PrisonSelectorSearchFormMixin._clean_prison_fields`: `errors` is the
set of field names already in error; returns the new cleaned data and the
errors this method adds.  `add_error` also removes the field from
`cleaned_data` (Django behaviour). -/
def clean_prison_fields (errors : List String) (cleaned_data : QD) :
    QD × List FieldError :=
  if "prison_selector" ∈ errors ∨ "prison" ∈ errors then (cleaned_data, [])
  else if qdLookup cleaned_data "prison_selector"
      = some (QV.s PRISON_SELECTOR_EXACT_PRISON_CHOICE_VALUE) then
    if qvOptTruthy (qdLookup cleaned_data "prison") then (cleaned_data, [])
    else (qdErase cleaned_data "prison",
          [⟨"prison", "required", REQUIRED_ERROR_MSG⟩])
  else (qdSet cleaned_data "prison" (QV.list []), [])

/-- C6: when neither prison field is already in error, cleaning adds a
`required` error on `prison` exactly when the selector is `'exact'` and no
prison was supplied; for any other selector the cleaned prison value is
reset to the empty list (and no error is added). -/
theorem claim_C6 (errors : List String) (cd : QD)
    (hclear : "prison_selector" ∉ errors ∧ "prison" ∉ errors) :
    ((clean_prison_fields errors cd).2
        = [⟨"prison", "required", REQUIRED_ERROR_MSG⟩]
      ↔ (qdLookup cd "prison_selector" = some (QV.s "exact")
          ∧ qvOptTruthy (qdLookup cd "prison") = false))
    ∧ (¬(qdLookup cd "prison_selector" = some (QV.s "exact")
          ∧ qvOptTruthy (qdLookup cd "prison") = false) →
        (clean_prison_fields errors cd).2 = [])
    ∧ (qdLookup cd "prison_selector" ≠ some (QV.s "exact") →
        qdLookup (clean_prison_fields errors cd).1 "prison" = some (QV.list [])
        ∧ (clean_prison_fields errors cd).2 = []) := by
  have hsc : ¬("prison_selector" ∈ errors ∨ "prison" ∈ errors) := by
    rintro (h | h)
    · exact hclear.1 h
    · exact hclear.2 h
  unfold clean_prison_fields
  rw [if_neg hsc]
  simp only [PRISON_SELECTOR_EXACT_PRISON_CHOICE_VALUE]
  by_cases hsel : qdLookup cd "prison_selector" = some (QV.s "exact")
  · rw [if_pos hsel]
    by_cases hpr : qvOptTruthy (qdLookup cd "prison") = true
    · rw [if_pos hpr]
      exact ⟨by simp [hsel, hpr], fun _ => rfl, fun hne => absurd hsel hne⟩
    · rw [if_neg hpr]
      have hprf : qvOptTruthy (qdLookup cd "prison") = false := by
        simpa [Bool.not_eq_true] using hpr
      exact ⟨by simp [hsel, hprf], fun hne => absurd ⟨hsel, hprf⟩ hne,
        fun hne => absurd hsel hne⟩
  · rw [if_neg hsel]
    exact ⟨by simp [hsel], fun _ => rfl, fun _ => ⟨by simp [qdLookup_set], rfl⟩⟩

/-- Witness for C6: an `'exact'` selector with no prison supplied yields
the `required` error. -/
theorem claim_C6_witness :
    (clean_prison_fields [] [("prison_selector", QV.s "exact")]).2
      = [⟨"prison", "required", REQUIRED_ERROR_MSG⟩] :=
  ((claim_C6 [] [("prison_selector", QV.s "exact")]
      ⟨List.not_mem_nil _, List.not_mem_nil _⟩).1).mpr ⟨rfl, rfl⟩

/-! ## C7: `CreditsFormV2._clean_dates` and `DisbursementsFormV2._clean_dates` -/

/-- `END_DATE_BEFORE_START_DATE_ERROR_MSG`. -/
def END_DATE_BEFORE_START_DATE_ERROR_MSG : String := "Must be after the start date."

/-- `CreditsFormV2._clean_dates`: adds a `bound_ordering` error on
`received_at__lt` when both dates are supplied and the start is after the
end. -/
def CreditsFormV2_clean_dates (received_at__gte received_at__lt : Option Date) :
    List FieldError :=
  match received_at__gte, received_at__lt with
  | some g, some l =>
      if Date.lt l g then
        [⟨"received_at__lt", "bound_ordering", END_DATE_BEFORE_START_DATE_ERROR_MSG⟩]
      else []
  | _, _ => []

/-- `DisbursementsFormV2._clean_dates`: the same check on `created__gte` /
`created__lt`. -/
def DisbursementsFormV2_clean_dates (created__gte created__lt : Option Date) :
    List FieldError :=
  match created__gte, created__lt with
  | some g, some l =>
      if Date.lt l g then
        [⟨"created__lt", "bound_ordering", END_DATE_BEFORE_START_DATE_ERROR_MSG⟩]
      else []
  | _, _ => []

/-- C7: both date-range cleaners add the `Must be after the start date.`
error with code `bound_ordering` on the end-date field exactly when both
dates are supplied and the from-date is strictly greater than the to-date;
otherwise they add nothing. -/
theorem claim_C7 (g l : Option Date) :
    (∀ a b, g = some a → l = some b → Date.lt b a →
        CreditsFormV2_clean_dates g l
          = [⟨"received_at__lt", "bound_ordering", END_DATE_BEFORE_START_DATE_ERROR_MSG⟩]
        ∧ DisbursementsFormV2_clean_dates g l
          = [⟨"created__lt", "bound_ordering", END_DATE_BEFORE_START_DATE_ERROR_MSG⟩])
    ∧ (∀ a b, g = some a → l = some b → ¬Date.lt b a →
        CreditsFormV2_clean_dates g l = [] ∧ DisbursementsFormV2_clean_dates g l = [])
    ∧ (g = none →
        CreditsFormV2_clean_dates g l = [] ∧ DisbursementsFormV2_clean_dates g l = [])
    ∧ (l = none →
        CreditsFormV2_clean_dates g l = [] ∧ DisbursementsFormV2_clean_dates g l = []) := by
  refine ⟨?_, ?_, ?_, ?_⟩
  · rintro a b rfl rfl hlt
    exact ⟨by simp [CreditsFormV2_clean_dates, hlt],
      by simp [DisbursementsFormV2_clean_dates, hlt]⟩
  · rintro a b rfl rfl hlt
    exact ⟨by simp [CreditsFormV2_clean_dates, hlt],
      by simp [DisbursementsFormV2_clean_dates, hlt]⟩
  · rintro rfl
    exact ⟨rfl, rfl⟩
  · rintro rfl
    rcases g with _ | a <;> exact ⟨rfl, rfl⟩

/-- Witness for C7: from-date 2020-01-02 and to-date 2020-01-01 produce
the ordering errors. -/
theorem claim_C7_witness :
    CreditsFormV2_clean_dates (some ⟨2020, 1, 2⟩) (some ⟨2020, 1, 1⟩)
      = [⟨"received_at__lt", "bound_ordering", END_DATE_BEFORE_START_DATE_ERROR_MSG⟩]
    ∧ DisbursementsFormV2_clean_dates (some ⟨2020, 1, 2⟩) (some ⟨2020, 1, 1⟩)
      = [⟨"created__lt", "bound_ordering", END_DATE_BEFORE_START_DATE_ERROR_MSG⟩] :=
  (claim_C7 (some ⟨2020, 1, 2⟩) (some ⟨2020, 1, 1⟩)).1 ⟨2020, 1, 2⟩ ⟨2020, 1, 1⟩
    rfl rfl (by decide)

/-! ## C8: `NomsOpsSettingsView.post` -/

/-- `EmailNotifications.daily`. Modelled from the spec: the
`EmailNotifications` constants live in `security.models`, which is not
under `src/`; the claim and the view's usage give the frequency values
`daily` and `never`. -/
def EmailNotifications_daily : String := "daily"

/-- `EmailNotifications.never`. Modelled from the spec (see
`EmailNotifications_daily`). -/
def EmailNotifications_never : String := "never"

/-- `QueryDict[key]`: Django returns the last value for a repeated key. -/
def queryDictLookup (data : List (String × String)) (k : String) : Option String :=
  List.lookup k data.reverse

/-- Result of `NomsOpsSettingsView.post`: the `(endpoint, frequency)`
pairs POSTed to the backend API, and the URL name redirected to. -/
structure SettingsPostResult where
  api_posts : List (String × String)
  redirect_to : String
deriving DecidableEq

/-- `NomsOpsSettingsView.post`: when `email_notifications` is in the POST
data, sends frequency `daily` for the value `'True'` and `never`
otherwise; always redirects to the settings page. -/
def settings_view_post (postData : List (String × String)) : SettingsPostResult :=
  match queryDictLookup postData "email_notifications" with
  | some v =>
      if v = "True" then
        ⟨[("/emailpreferences/", EmailNotifications_daily)], "settings"⟩
      else
        ⟨[("/emailpreferences/", EmailNotifications_never)], "settings"⟩
  | none => ⟨[], "settings"⟩

/-- C8: the settings POST sends `daily` exactly for the string `'True'`,
`never` for any other present value, makes no backend call when the key is
absent, and always redirects to the settings page. -/
theorem claim_C8 (postData : List (String × String)) :
    (settings_view_post postData).redirect_to = "settings"
    ∧ (queryDictLookup postData "email_notifications" = some "True" →
        (settings_view_post postData).api_posts = [("/emailpreferences/", "daily")])
    ∧ (∀ v, queryDictLookup postData "email_notifications" = some v → v ≠ "True" →
        (settings_view_post postData).api_posts = [("/emailpreferences/", "never")])
    ∧ (queryDictLookup postData "email_notifications" = none →
        (settings_view_post postData).api_posts = []) := by
  refine ⟨?_, ?_, ?_, ?_⟩
  · unfold settings_view_post
    rcases queryDictLookup postData "email_notifications" with _ | v
    · rfl
    · by_cases hv : v = "True" <;> simp [hv]
  · intro hl
    simp [settings_view_post, hl, EmailNotifications_daily]
  · intro v hl hv
    simp [settings_view_post, hl, hv, EmailNotifications_never]
  · intro hl
    simp [settings_view_post, hl]

/-- Witness for C8: posting `email_notifications=False` turns
notifications off and redirects to settings. -/
theorem claim_C8_witness :
    (settings_view_post [("email_notifications", "False")]).api_posts
      = [("/emailpreferences/", "never")]
    ∧ (settings_view_post [("email_notifications", "False")]).redirect_to = "settings" :=
  ⟨(claim_C8 [("email_notifications", "False")]).2.2.1 "False" rfl (by decide),
    (claim_C8 [("email_notifications", "False")]).1⟩

/-! ## C10: `ChangePrisonsView.get_success_url` -/

/-- `REDIRECT_FIELD_NAME` (Django's `django.contrib.auth`). -/
def REDIRECT_FIELD_NAME : String := "next"

/-- `ChangePrisonsView.get_success_url`.  `is_safe_url` is Django framework
code and is kept abstract as a parameter; the view passes it the view's
allowed hosts and `require_https=request.is_secure()`.  `settings_url` is
the URL that `reverse('settings')` resolves to. -/
def ChangePrisonsView_get_success_url
    (is_safe_url : String → List String → Bool → Bool)
    (settings_url : String) (allowed_hosts : List String) (is_secure : Bool)
    (getParams : List (String × String)) : String :=
  match queryDictLookup getParams REDIRECT_FIELD_NAME with
  | some next_page =>
      if is_safe_url next_page allowed_hosts is_secure then next_page
      else settings_url
  | none => settings_url

/-- C10: the success URL is the request's `next` parameter only when
`is_safe_url` (receiving the allowed hosts and, as `require_https`, whether
the request is secure) judges it safe; otherwise — including when `next`
is absent — it is the settings page URL. -/
theorem claim_C10 (is_safe_url : String → List String → Bool → Bool)
    (settings_url : String) (allowed_hosts : List String) (is_secure : Bool)
    (getParams : List (String × String)) :
    (∀ next_page, queryDictLookup getParams REDIRECT_FIELD_NAME = some next_page →
        is_safe_url next_page allowed_hosts is_secure = true →
        ChangePrisonsView_get_success_url is_safe_url settings_url allowed_hosts
          is_secure getParams = next_page)
    ∧ (∀ next_page, queryDictLookup getParams REDIRECT_FIELD_NAME = some next_page →
        is_safe_url next_page allowed_hosts is_secure = false →
        ChangePrisonsView_get_success_url is_safe_url settings_url allowed_hosts
          is_secure getParams = settings_url)
    ∧ (queryDictLookup getParams REDIRECT_FIELD_NAME = none →
        ChangePrisonsView_get_success_url is_safe_url settings_url allowed_hosts
          is_secure getParams = settings_url) := by
  refine ⟨?_, ?_, ?_⟩
  · intro next_page hl hs
    simp [ChangePrisonsView_get_success_url, hl, hs]
  · intro next_page hl hs
    simp [ChangePrisonsView_get_success_url, hl, hs]
  · intro hl
    simp [ChangePrisonsView_get_success_url, hl]

/-- Witness for C10: an unsafe `next` falls back to the settings page. -/
theorem claim_C10_witness :
    ChangePrisonsView_get_success_url (fun _ _ _ => false) "/settings/"
      ["example.com"] true [("next", "http://evil.invalid/")] = "/settings/" :=
  (claim_C10 (fun _ _ _ => false) "/settings/" ["example.com"] true
      [("next", "http://evil.invalid/")]).2.1 "http://evil.invalid/" rfl rfl

/-! ## C9: `security/export.py` — `write_credits` and `escape_formulae` -/

/-- A value that can land in a spreadsheet cell: strings, datetimes, dates,
integers or `None`. -/
inductive CellValue where
  | str (s : String)
  | datetime (date : Date) (hour minute second : Nat)
  | dateVal (d : Date)
  | intVal (n : Int)
  | noneVal
deriving DecidableEq

/-- `value.startswith('=')`: whether the first character is `'='`. -/
def strStartsEq (s : String) : Bool :=
  match s.data with
  | c :: _ => c == '='
  | [] => false

/-- A one-character string holding an apostrophe (the `"'"` literal that
`escape_formulae` prepends). -/
def apos : String := String.singleton (Char.ofNat 39)

/-- `strftime('%Y-%m-%d')`. -/
def formatDate (d : Date) : String :=
  pad4 d.year ++ "-" ++ pad2 d.month ++ "-" ++ pad2 d.day

/-- `strftime('%Y-%m-%d %H:%M:%S')`. -/
def formatDateTime (d : Date) (hour minute second : Nat) : String :=
  formatDate d ++ " " ++ pad2 hour ++ ":" ++ pad2 minute ++ ":" ++ pad2 second

/-- `escape_formulae`: prepend an apostrophe to strings starting with `=`
(to prevent spreadsheet formula injection); format datetimes and dates;
leave every other value unchanged.  The `datetime` test comes first, as in
the source (a Python `datetime` is also a `date`). -/
def escape_formulae : CellValue → CellValue
  | CellValue.str s =>
      if strStartsEq s then CellValue.str (apos ++ s) else CellValue.str s
  | CellValue.datetime d hour minute second =>
      CellValue.str (formatDateTime d hour minute second)
  | CellValue.dateVal d => CellValue.str (formatDate d)
  | v => v

/-- A billing address dict; each key may be missing. -/
structure BillingAddress where
  line1 : Option String
  line2 : Option String
  city : Option String
  postcode : Option String
  country : Option String
deriving DecidableEq

/-- Python `\s` for the characters these addresses can contain. -/
def isPythonSpace (c : Char) : Bool :=
  c = ' ' ∨ c = '\t' ∨ c = '\n' ∨ c = '\r'

/-- `re.compile(r'\s+').sub(' ', value).strip()`: collapse whitespace runs
to single spaces and strip the ends. -/
def collapseWhitespace (s : String) : String :=
  String.intercalate " " ((s.split (fun c => isPythonSpace c)).filter (fun w => w ≠ ""))

/-- `address_for_export`: join the non-empty address parts with `', '`. -/
def address_for_export (address : Option BillingAddress) : String :=
  match address with
  | none => ""
  | some a =>
      String.intercalate ", "
        (([a.line1, a.line2, a.city, a.postcode, a.country].filterMap
          (fun v => match v with
                    | some t => if t ≠ "" then some (collapseWhitespace t) else none
                    | none => none)))

/-- The `payment_methods.get(credit['source'], credit['source'])` lookup of
`export.py`. -/
def payment_methods_get (source : String) : String :=
  if source = "bank_transfer" then "Bank transfer"
  else if source = "online" then "Debit card"
  else source

/-- The formatting helpers from `security.templatetags.security`, which are
not under `src/`; kept abstract as parameters of the export. -/
structure Formatters where
  currency : Int → CellValue
  format_sort_code : String → CellValue
  format_card_number : String → CellValue
  format_resolution : String → CellValue

/-- One credit record of the export's `object_list`; fields the code passes
through untouched are arbitrary cell values, fields it inspects are typed. -/
structure Credit where
  prisoner_name : CellValue
  prisoner_number : CellValue
  prison_name : CellValue
  sender_name : CellValue
  source : String
  sender_sort_code : String
  sender_account_number : CellValue
  sender_roll_number : CellValue
  card_number_last_digits : String
  card_expiry_date : CellValue
  billing_address : Option BillingAddress
  amount : Int
  received_at : CellValue
  resolution : String
  credited_at : CellValue
  nomis_transaction_id : CellValue
  ip_address : CellValue

/-- The `cells` list of one `write_credits` row, before escaping. -/
def credit_cells (fmts : Formatters) (credit : Credit) : List CellValue :=
  [credit.prisoner_name,
   credit.prisoner_number,
   credit.prison_name,
   credit.sender_name,
   CellValue.str (payment_methods_get credit.source),
   (if credit.sender_sort_code ≠ "" then fmts.format_sort_code credit.sender_sort_code
    else CellValue.str ""),
   credit.sender_account_number,
   credit.sender_roll_number,
   (if credit.card_number_last_digits ≠ "" then
      fmts.format_card_number credit.card_number_last_digits
    else CellValue.str ""),
   credit.card_expiry_date,
   CellValue.str (address_for_export credit.billing_address),
   fmts.currency credit.amount,
   credit.received_at,
   fmts.format_resolution credit.resolution,
   credit.credited_at,
   credit.nomis_transaction_id,
   credit.ip_address]

/-- `write_credits`: one row per credit, every cell passed through
`escape_formulae`. -/
def write_credits (fmts : Formatters) (object_list : List Credit) :
    List (List CellValue) :=
  object_list.map (fun credit => (credit_cells fmts credit).map escape_formulae)

theorem strStartsEq_append_left (s t : String) (h : s.data ≠ []) :
    strStartsEq (s ++ t) = strStartsEq s := by
  unfold strStartsEq
  rw [String.data_append]
  cases hd : s.data with
  | nil => exact absurd hd h
  | cons c cs => simp [hd]

theorem natDigits_ne_nil (n : Nat) : natDigits n ≠ [] := by
  rw [natDigits]
  split_ifs <;> simp

theorem natDigits_mem_digit (n : Nat) :
    ∀ c ∈ natDigits n, ∃ d, d < 10 ∧ c = decimalDigitChar d := by
  induction n using Nat.strong_induction_on with
  | _ n ih =>
      intro c hc
      rw [natDigits] at hc
      by_cases h : n < 10
      · rw [if_pos h] at hc
        rcases List.mem_singleton.mp hc with rfl
        exact ⟨n, h, rfl⟩
      · rw [if_neg h] at hc
        rcases List.mem_append.mp hc with hc' | hc'
        · exact ih (n / 10) (Nat.div_lt_self (by omega) (by omega)) c hc'
        · rcases List.mem_singleton.mp hc' with rfl
          exact ⟨n % 10, Nat.mod_lt _ (by omega), rfl⟩

theorem decimalDigitChar_ne_eq {d : Nat} (hd : d < 10) :
    (decimalDigitChar d == '=') = false := by
  interval_cases d <;> decide

theorem natToString_startsEq (n : Nat) : strStartsEq (natToString n) = false := by
  unfold strStartsEq natToString
  cases hd : natDigits n with
  | nil => rfl
  | cons c cs =>
      obtain ⟨d, hlt, rfl⟩ :=
        natDigits_mem_digit n c (hd ▸ List.mem_cons_self c cs)
      exact decimalDigitChar_ne_eq hlt

theorem natToString_data_ne_nil (n : Nat) : (natToString n).data ≠ [] :=
  natDigits_ne_nil n

theorem pad4_startsEq (n : Nat) : strStartsEq (pad4 n) = false := by
  unfold pad4
  split_ifs
  · rw [strStartsEq_append_left _ _ (by decide)]; decide
  · rw [strStartsEq_append_left _ _ (by decide)]; decide
  · rw [strStartsEq_append_left _ _ (by decide)]; decide
  · exact natToString_startsEq n

theorem data_append_ne_nil_left (s t : String) (h : s.data ≠ []) :
    (s ++ t).data ≠ [] := by
  rw [String.data_append]
  simp [h]

theorem pad4_data_ne_nil (n : Nat) : (pad4 n).data ≠ [] := by
  unfold pad4
  split_ifs
  · exact data_append_ne_nil_left _ _ (by decide)
  · exact data_append_ne_nil_left _ _ (by decide)
  · exact data_append_ne_nil_left _ _ (by decide)
  · exact natToString_data_ne_nil n

theorem formatDate_startsEq (d : Date) : strStartsEq (formatDate d) = false := by
  have h1 : (pad4 d.year).data ≠ [] := pad4_data_ne_nil d.year
  have h2 : (pad4 d.year ++ "-").data ≠ [] := data_append_ne_nil_left _ _ h1
  have h3 : (pad4 d.year ++ "-" ++ pad2 d.month).data ≠ [] :=
    data_append_ne_nil_left _ _ h2
  have h4 : (pad4 d.year ++ "-" ++ pad2 d.month ++ "-").data ≠ [] :=
    data_append_ne_nil_left _ _ h3
  unfold formatDate
  rw [strStartsEq_append_left _ _ h4, strStartsEq_append_left _ _ h3,
    strStartsEq_append_left _ _ h2, strStartsEq_append_left _ _ h1]
  exact pad4_startsEq d.year

theorem formatDate_data_ne_nil (d : Date) : (formatDate d).data ≠ [] := by
  unfold formatDate
  exact data_append_ne_nil_left _ _ (data_append_ne_nil_left _ _
    (data_append_ne_nil_left _ _ (data_append_ne_nil_left _ _
      (pad4_data_ne_nil d.year))))

theorem formatDateTime_startsEq (d : Date) (hour minute second : Nat) :
    strStartsEq (formatDateTime d hour minute second) = false := by
  have g1 : (formatDate d).data ≠ [] := formatDate_data_ne_nil d
  have g2 : (formatDate d ++ " ").data ≠ [] := data_append_ne_nil_left _ _ g1
  have g3 : (formatDate d ++ " " ++ pad2 hour).data ≠ [] :=
    data_append_ne_nil_left _ _ g2
  have g4 : (formatDate d ++ " " ++ pad2 hour ++ ":").data ≠ [] :=
    data_append_ne_nil_left _ _ g3
  have g5 : (formatDate d ++ " " ++ pad2 hour ++ ":" ++ pad2 minute).data ≠ [] :=
    data_append_ne_nil_left _ _ g4
  have g6 : (formatDate d ++ " " ++ pad2 hour ++ ":" ++ pad2 minute ++ ":").data ≠ [] :=
    data_append_ne_nil_left _ _ g5
  unfold formatDateTime
  rw [strStartsEq_append_left _ _ g6, strStartsEq_append_left _ _ g5,
    strStartsEq_append_left _ _ g4, strStartsEq_append_left _ _ g3,
    strStartsEq_append_left _ _ g2, strStartsEq_append_left _ _ g1]
  exact formatDate_startsEq d

theorem apos_startsEq (s : String) : strStartsEq (apos ++ s) = false := by
  rw [strStartsEq_append_left _ _ (by decide)]
  decide

/-- No cell value that `escape_formulae` returns is a string starting with
`'='`. -/
theorem escape_formulae_no_eq (v : CellValue) (s : String)
    (h : escape_formulae v = CellValue.str s) : strStartsEq s = false := by
  cases v with
  | str s0 =>
      simp only [escape_formulae] at h
      by_cases hs : strStartsEq s0 = true
      · rw [if_pos hs] at h
        injection h with h
        subst h
        exact apos_startsEq s0
      · rw [if_neg hs] at h
        injection h with h
        subst h
        simpa [Bool.not_eq_true] using hs
  | datetime d hour minute second =>
      injection h with h
      subst h
      exact formatDateTime_startsEq d hour minute second
  | dateVal d =>
      injection h with h
      subst h
      exact formatDate_startsEq d
  | intVal n => cases h
  | noneVal => cases h

/-- C9: every written cell passes through `escape_formulae`; a string
starting with `'='` gains a leading apostrophe, datetimes are written as
`YYYY-MM-DD HH:MM:SS`, dates as `YYYY-MM-DD`, other values unchanged; and
consequently no string written to any cell starts with `'='`. -/
theorem claim_C9 (fmts : Formatters) (object_list : List Credit) :
    (∀ row ∈ write_credits fmts object_list, ∃ credit ∈ object_list,
        row = (credit_cells fmts credit).map escape_formulae)
    ∧ (∀ s, strStartsEq s = true →
        escape_formulae (CellValue.str s) = CellValue.str (apos ++ s))
    ∧ (∀ s, strStartsEq s = false →
        escape_formulae (CellValue.str s) = CellValue.str s)
    ∧ (∀ d hour minute second, escape_formulae (CellValue.datetime d hour minute second)
        = CellValue.str (pad4 d.year ++ "-" ++ pad2 d.month ++ "-" ++ pad2 d.day
            ++ " " ++ pad2 hour ++ ":" ++ pad2 minute ++ ":" ++ pad2 second))
    ∧ (∀ d, escape_formulae (CellValue.dateVal d)
        = CellValue.str (pad4 d.year ++ "-" ++ pad2 d.month ++ "-" ++ pad2 d.day))
    ∧ (∀ n, escape_formulae (CellValue.intVal n) = CellValue.intVal n)
    ∧ escape_formulae CellValue.noneVal = CellValue.noneVal
    ∧ (∀ row ∈ write_credits fmts object_list, ∀ cell ∈ row, ∀ s,
        cell = CellValue.str s → strStartsEq s = false) := by
  refine ⟨?_, ?_, ?_, fun d hour minute second => rfl, fun d => rfl,
    fun n => rfl, rfl, ?_⟩
  · intro row hrow
    rcases List.mem_map.mp hrow with ⟨credit, hc, heq⟩
    exact ⟨credit, hc, heq.symm⟩
  · intro s hs
    simp [escape_formulae, hs]
  · intro s hs
    simp [escape_formulae, hs]
  · intro row hrow cell hcell s hcs
    rcases List.mem_map.mp hrow with ⟨credit, _, heq⟩
    subst heq
    rcases List.mem_map.mp hcell with ⟨v, _, hv⟩
    exact escape_formulae_no_eq v s (hcs ▸ hv)

/-- Witness for C9: the string `=1+1` is written with a leading apostrophe,
which no longer starts with `'='`. -/
theorem claim_C9_witness :
    escape_formulae (CellValue.str "=1+1") = CellValue.str (apos ++ "=1+1")
    ∧ strStartsEq (apos ++ "=1+1") = false :=
  ⟨(claim_C9 ⟨fun _ => CellValue.noneVal, fun _ => CellValue.noneVal,
      fun _ => CellValue.noneVal, fun _ => CellValue.noneVal⟩ []).2.1 "=1+1" (by decide),
    apos_startsEq "=1+1"⟩

/-! ## C1/C2: notification date grouping (`group_events_by_date`,
`summarise_date_group`) -/

/-- A sender profile as the events API returns it; `sender_profile_name`
(from `security.utils`, not under `src/`) is modelled as the profile's
display name. -/
structure SenderProfile where
  id : Nat
  name : String
deriving DecidableEq

/-- A prisoner profile: id, name and prisoner number. -/
structure PrisonerProfile where
  id : Nat
  prisoner_name : String
  prisoner_number : String
deriving DecidableEq

/-- One event from the `/events/` endpoint. `credit_id` / `disbursement_id`
may be absent (`None`). -/
structure Event where
  triggered_at : DateTime
  sender_profile : Option SenderProfile
  prisoner_profile : Option PrisonerProfile
  credit_id : Option Nat
  disbursement_id : Option Nat
deriving DecidableEq

/-- `event['triggered_at'].date()`. -/
def eventDate (e : Event) : Date := e.triggered_at.date

/-- The per-profile accumulator of `make_date_group_profile`: credit and
disbursement ids are Python sets. -/
structure ProfileDetails where
  id : Nat
  description : String
  credit_ids : Finset Nat
  disbursement_ids : Finset Nat
deriving DecidableEq

/-- A date group: its date (`None` only for the initial sentinel group)
and the insertion-ordered `senders` / `prisoners` dicts. -/
structure DateGroup where
  date : Option Date
  senders : List (Nat × ProfileDetails)
  prisoners : List (Nat × ProfileDetails)
deriving DecidableEq

/-- `make_date_group`. -/
def make_date_group (date : Option Date) : DateGroup := ⟨date, [], []⟩

/-- `make_date_group_profile`. -/
def make_date_group_profile (profile_id : Nat) (description : String) :
    ProfileDetails :=
  ⟨profile_id, description, ∅, ∅⟩

/-- `sender_profile_name` from `security.utils` is not under `src/`;
modelled as the profile's display name (its content is irrelevant to the
claims, which only sort and carry it). -/
def sender_profile_name (p : SenderProfile) : String := p.name

/-- The prisoner description built inline in `group_events_by_date`:
`f"{prisoner_name} ({prisoner_number})"`. -/
def prisoner_profile_description (p : PrisonerProfile) : String :=
  p.prisoner_name ++ " (" ++ p.prisoner_number ++ ")"

/-- The two `if event['credit_id'] / ['disbursement_id']` additions: a
truthy (present, non-zero) id is added to the respective set. -/
def addEventIds (credit_id disbursement_id : Option Nat)
    (details : ProfileDetails) : ProfileDetails :=
  let details1 :=
    match credit_id with
    | some c =>
        if c ≠ 0 then { details with credit_ids := insert c details.credit_ids }
        else details
    | none => details
  match disbursement_id with
  | some i =>
      if i ≠ 0 then
        { details1 with disbursement_ids := insert i details1.disbursement_ids }
      else details1
  | none => details1

/-- Python dict get-or-create followed by in-place mutation: apply `f` to
the existing entry, or to `init` appended at the end. -/
def dictUpsert (m : List (Nat × ProfileDetails)) (k : Nat) (init : ProfileDetails)
    (f : ProfileDetails → ProfileDetails) : List (Nat × ProfileDetails) :=
  match m with
  | [] => [(k, f init)]
  | (k', v) :: rest =>
      if k' = k then (k', f v) :: rest else (k', v) :: dictUpsert rest k init f

/-- Dict lookup for the profile dicts. -/
def dictLookup : List (Nat × ProfileDetails) → Nat → Option ProfileDetails
  | [], _ => none
  | (k', v) :: rest, k => if k' = k then some v else dictLookup rest k

/-- The body of the `for event in events` loop acting on the current date
group: record the event's ids under its sender and prisoner profiles. -/
def addEventToGroup (event : Event) (g : DateGroup) : DateGroup :=
  let ids := addEventIds event.credit_id event.disbursement_id
  let g1 :=
    match event.sender_profile with
    | some profile =>
        let senders1 :=
          dictUpsert g.senders profile.id
            (make_date_group_profile profile.id (sender_profile_name profile)) ids
        { g with senders := senders1 }
    | none => g
  match event.prisoner_profile with
  | some profile =>
      let prisoners1 :=
        dictUpsert g1.prisoners profile.id
          (make_date_group_profile profile.id (prisoner_profile_description profile)) ids
      { g1 with prisoners := prisoners1 }
  | none => g1

/-- One loop iteration over the (reversed) list of groups built so far: a
new group is started whenever the event's date differs from the current
group's date (the sentinel start is the empty list). -/
def stepRev (acc : List DateGroup) (event : Event) : List DateGroup :=
  let event_date := eventDate event
  match acc with
  | [] => [addEventToGroup event (make_date_group (some event_date))]
  | g :: rest =>
      if g.date ≠ some event_date then
        addEventToGroup event (make_date_group (some event_date)) :: g :: rest
      else addEventToGroup event g :: rest

/-- The loop of `group_events_by_date`, with the group list reversed
(head = group currently being mutated). -/
def groupEventsRev : List Event → List DateGroup → List DateGroup
  | [], acc => acc
  | e :: es, acc => groupEventsRev es (stepRev acc e)

/-- `group_events_by_date`. -/
def group_events_by_date (events : List Event) : List DateGroup :=
  (groupEventsRev events []).reverse

/-- The run-collapse of a date list as the grouping loop performs it:
a date equal to the current group's date is absorbed, any other date
starts a new run. -/
def collapseFrom (cur : Option Date) : List Date → List Date
  | [] => []
  | d :: ds => if cur = some d then collapseFrom cur ds else d :: collapseFrom (some d) ds

/-- First-occurrence deduplication of a date list. -/
def firstOccDedup : List Date → List Date
  | [] => []
  | d :: ds => d :: firstOccDedup (ds.filter (fun x => x ≠ d))
termination_by l => l.length
decreasing_by
  simp_wf
  exact Nat.lt_succ_of_le (List.length_filter_le _ _)

/-- An event list whose dates alternate: 1 Jan, 2 Jan, 1 Jan. -/
def counterexampleEventC1 (d : Date) : Event := ⟨⟨d, 0, 0, 0⟩, none, none, none, none⟩

/-- Three events over two distinct dates, equal dates not adjacent. -/
def counterexampleEventsC1 : List Event :=
  [counterexampleEventC1 ⟨2020, 1, 1⟩, counterexampleEventC1 ⟨2020, 1, 2⟩,
   counterexampleEventC1 ⟨2020, 1, 1⟩]

/-- C1 as stated is false: on events dated 1 Jan, 2 Jan, 1 Jan the function
produces three date groups — one per run, not one per distinct date — so
two groups share the date 1 Jan. -/
theorem claim_C1_counterexample :
    (group_events_by_date counterexampleEventsC1).length = 3
    ∧ ((counterexampleEventsC1.map eventDate).dedup).length = 2
    ∧ ¬((group_events_by_date counterexampleEventsC1).map DateGroup.date).Nodup := by
  decide

theorem addEventToGroup_date (e : Event) (g : DateGroup) :
    (addEventToGroup e g).date = g.date := by
  unfold addEventToGroup
  rcases hs : e.sender_profile with _ | p <;> rcases hq : e.prisoner_profile with _ | q <;>
    simp [hs, hq]

/-- The date of the group currently being extended (`None` before the
first event, matching `make_date_group(None)`). -/
def headDateOf (acc : List DateGroup) : Option Date :=
  match acc with
  | [] => none
  | g :: _ => g.date

theorem groupEventsRev_dates (es : List Event) :
    ∀ acc, ((groupEventsRev es acc).reverse.map DateGroup.date)
      = (acc.reverse.map DateGroup.date)
        ++ (collapseFrom (headDateOf acc) (es.map eventDate)).map some := by
  induction es with
  | nil => intro acc; simp [groupEventsRev, collapseFrom]
  | cons e rest ih =>
      intro acc
      show (groupEventsRev rest (stepRev acc e)).reverse.map DateGroup.date = _
      rw [ih (stepRev acc e)]
      cases acc with
      | nil =>
          have hstep : stepRev [] e
              = [addEventToGroup e (make_date_group (some (eventDate e)))] := rfl
          rw [hstep]
          simp only [headDateOf, List.reverse_singleton, List.map_cons, List.map_nil,
            addEventToGroup_date, make_date_group, List.reverse_nil, List.nil_append,
            List.map_map]
          have hcol : collapseFrom none (eventDate e :: rest.map eventDate)
              = eventDate e :: collapseFrom (some (eventDate e)) (rest.map eventDate) := by
            simp [collapseFrom]
          rw [hcol]
          simp
      | cons g rest' =>
          by_cases hd : g.date = some (eventDate e)
          · have hstep : stepRev (g :: rest') e = addEventToGroup e g :: rest' := by
              simp [stepRev, hd]
            rw [hstep]
            have hcol : collapseFrom (headDateOf (g :: rest')) ((e :: rest).map eventDate)
                = collapseFrom g.date (rest.map eventDate) := by
              simp [headDateOf, collapseFrom, hd]
            rw [hcol]
            simp [headDateOf, addEventToGroup_date, hd]
          · have hstep : stepRev (g :: rest') e
                = addEventToGroup e (make_date_group (some (eventDate e))) :: g :: rest' := by
              simp [stepRev, hd]
            rw [hstep]
            have hcol : collapseFrom (headDateOf (g :: rest')) ((e :: rest).map eventDate)
                = eventDate e :: collapseFrom (some (eventDate e)) (rest.map eventDate) := by
              simp only [headDateOf, List.map_cons, collapseFrom]
              rw [if_neg (by simpa using hd)]
            rw [hcol]
            simp [headDateOf, addEventToGroup_date, make_date_group]

theorem collapseFrom_cons (cur : Option Date) (d : Date) (ds : List Date) :
    collapseFrom cur (d :: ds)
      = if cur = some d then collapseFrom cur ds
        else d :: collapseFrom (some d) ds := rfl

theorem firstOccDedup_nil : firstOccDedup [] = [] := by
  rw [firstOccDedup]

theorem firstOccDedup_cons (d : Date) (ds : List Date) :
    firstOccDedup (d :: ds) = d :: firstOccDedup (ds.filter (fun x => x ≠ d)) := by
  rw [firstOccDedup]

theorem mem_collapseFrom_some (ds : List Date) :
    ∀ (c x : Date), x ≠ c → x ∈ ds → x ∈ collapseFrom (some c) ds := by
  induction ds with
  | nil => intro c x _ h; cases h
  | cons d rest ih =>
      intro c x hxc hx
      by_cases hdc : c = d
      · subst hdc
        rw [collapseFrom_cons, if_pos rfl]
        rcases List.mem_cons.mp hx with rfl | hx'
        · exact absurd rfl hxc
        · exact ih c x hxc hx'
      · have hne : ¬(some c : Option Date) = some d :=
          fun h => hdc (Option.some.inj h)
        rw [collapseFrom_cons, if_neg hne]
        rcases List.mem_cons.mp hx with rfl | hx'
        · exact List.mem_cons_self _ _
        · by_cases hxd : x = d
          · exact hxd ▸ List.mem_cons_self _ _
          · exact List.mem_cons_of_mem _ (ih d x hxd hx')

theorem collapse_some_eq (ds : List Date) : ∀ (c : Date),
    (collapseFrom (some c) ds).Nodup → c ∉ collapseFrom (some c) ds →
    collapseFrom (some c) ds = firstOccDedup (ds.filter (fun x => x ≠ c)) := by
  induction ds with
  | nil =>
      intro c _ _
      simp [collapseFrom, firstOccDedup_nil]
  | cons d rest ih =>
      intro c hnodup hnot
      by_cases hdc : c = d
      · subst hdc
        rw [collapseFrom_cons, if_pos rfl] at hnodup hnot ⊢
        rw [show (c :: rest).filter (fun x => x ≠ c) = rest.filter (fun x => x ≠ c) from by
          simp]
        exact ih c hnodup hnot
      · have hne : ¬(some c : Option Date) = some d :=
          fun h => hdc (Option.some.inj h)
        rw [collapseFrom_cons, if_neg hne] at hnodup hnot ⊢
        have hcd : c ∉ collapseFrom (some d) rest := fun hc =>
          hnot (List.mem_cons_of_mem _ hc)
        have hcrest : c ∉ rest := fun hc =>
          hcd (mem_collapseFrom_some rest d c hdc hc)
        have hdc' : d ≠ c := fun h => hdc h.symm
        have hfil : (d :: rest).filter (fun x => x ≠ c)
            = d :: rest.filter (fun x => x ≠ c) := by
          simp [List.filter_cons, hdc']
        have hfil2 : rest.filter (fun x => x ≠ c) = rest := by
          rw [List.filter_eq_self]
          intro x hx
          simpa using fun h : x = c => hcrest (h ▸ hx)
        rw [hfil, hfil2, firstOccDedup_cons]
        have hnodup' := List.nodup_cons.mp hnodup
        rw [ih d hnodup'.2 hnodup'.1]

theorem collapse_none_eq (l : List Date) (h : (collapseFrom none l).Nodup) :
    collapseFrom none l = firstOccDedup l := by
  cases l with
  | nil => simp [collapseFrom, firstOccDedup_nil]
  | cons d rest =>
      have hred : collapseFrom none (d :: rest)
          = d :: collapseFrom (some d) rest := by
        rw [collapseFrom_cons, if_neg (by simp)]
      rw [hred] at h ⊢
      have h' := List.nodup_cons.mp h
      rw [firstOccDedup_cons, collapse_some_eq rest d h'.2 h'.1]

theorem mem_firstOccDedup_aux : ∀ (n : Nat) (l : List Date), l.length ≤ n →
    ∀ x, (x ∈ firstOccDedup l ↔ x ∈ l) := by
  intro n
  induction n with
  | zero =>
      intro l hl x
      cases l with
      | nil => simp [firstOccDedup]
      | cons d rest => simp at hl
  | succ n ih =>
      intro l hl x
      cases l with
      | nil => simp [firstOccDedup]
      | cons d rest =>
          have hlen : (rest.filter (fun y => y ≠ d)).length ≤ n :=
            le_trans (List.length_filter_le _ _) (Nat.succ_le_succ_iff.mp hl)
          rw [firstOccDedup]
          simp only [List.mem_cons]
          constructor
          · rintro (rfl | hx)
            · exact Or.inl rfl
            · have hx' := (ih _ hlen x).mp hx
              rw [List.mem_filter] at hx'
              exact Or.inr hx'.1
          · rintro (rfl | hx)
            · exact Or.inl rfl
            · by_cases hxd : x = d
              · exact Or.inl hxd
              · exact Or.inr ((ih _ hlen x).mpr
                  (List.mem_filter.mpr ⟨hx, by simpa using hxd⟩))

theorem mem_firstOccDedup (l : List Date) (x : Date) :
    x ∈ firstOccDedup l ↔ x ∈ l :=
  mem_firstOccDedup_aux l.length l le_rfl x

/-- The id sets of one profile entry only ever grow. -/
def DetailsLE (a b : ProfileDetails) : Prop :=
  a.credit_ids ⊆ b.credit_ids ∧ a.disbursement_ids ⊆ b.disbursement_ids

theorem DetailsLE_refl (a : ProfileDetails) : DetailsLE a a :=
  ⟨Finset.Subset.refl _, Finset.Subset.refl _⟩

theorem DetailsLE_trans {a b c : ProfileDetails}
    (h1 : DetailsLE a b) (h2 : DetailsLE b c) : DetailsLE a c :=
  ⟨Finset.Subset.trans h1.1 h2.1, Finset.Subset.trans h1.2 h2.2⟩

/-- Every entry of the first dict is present in the second with sets grown. -/
def DictLE (m m' : List (Nat × ProfileDetails)) : Prop :=
  ∀ k pd, dictLookup m k = some pd →
    ∃ pd', dictLookup m' k = some pd' ∧ DetailsLE pd pd'

theorem DictLE_refl (m : List (Nat × ProfileDetails)) : DictLE m m :=
  fun _ pd h => ⟨pd, h, DetailsLE_refl pd⟩

theorem DictLE_trans {a b c : List (Nat × ProfileDetails)}
    (h1 : DictLE a b) (h2 : DictLE b c) : DictLE a c := by
  intro k pd h
  obtain ⟨pd1, hb, hle1⟩ := h1 k pd h
  obtain ⟨pd2, hc, hle2⟩ := h2 k pd1 hb
  exact ⟨pd2, hc, DetailsLE_trans hle1 hle2⟩

/-- A later snapshot of a date group: same date, entries only grown. -/
def GroupLE (g g' : DateGroup) : Prop :=
  g.date = g'.date ∧ DictLE g.senders g'.senders ∧ DictLE g.prisoners g'.prisoners

theorem GroupLE_refl (g : DateGroup) : GroupLE g g :=
  ⟨rfl, DictLE_refl _, DictLE_refl _⟩

theorem GroupLE_trans {a b c : DateGroup}
    (h1 : GroupLE a b) (h2 : GroupLE b c) : GroupLE a c :=
  ⟨h1.1.trans h2.1, DictLE_trans h1.2.1 h2.2.1, DictLE_trans h1.2.2 h2.2.2⟩

theorem dictLookup_upsert_same (m : List (Nat × ProfileDetails)) (k : Nat)
    (init : ProfileDetails) (f : ProfileDetails → ProfileDetails) :
    dictLookup (dictUpsert m k init f) k
      = some (f ((dictLookup m k).getD init)) := by
  induction m with
  | nil => simp [dictUpsert, dictLookup]
  | cons kv rest ih =>
      obtain ⟨k', v⟩ := kv
      by_cases hk : k' = k
      · subst hk
        simp [dictUpsert, dictLookup]
      · simp [dictUpsert, dictLookup, hk, ih]

theorem dictLookup_upsert_other (m : List (Nat × ProfileDetails)) (k k' : Nat)
    (init : ProfileDetails) (f : ProfileDetails → ProfileDetails) (hk : k' ≠ k) :
    dictLookup (dictUpsert m k init f) k' = dictLookup m k' := by
  have hkk : ¬k = k' := fun h => hk h.symm
  induction m with
  | nil =>
      show (if k = k' then some (f init) else none) = none
      rw [if_neg hkk]
  | cons kv rest ih =>
      obtain ⟨a, v⟩ := kv
      show dictLookup
          (if a = k then (a, f v) :: rest else (a, v) :: dictUpsert rest k init f) k'
        = dictLookup ((a, v) :: rest) k'
      by_cases hak : a = k
      · rw [if_pos hak]
        have hayk : ¬a = k' := fun h => hkk (hak ▸ h)
        show (if a = k' then some (f v) else dictLookup rest k')
          = (if a = k' then some v else dictLookup rest k')
        rw [if_neg hayk, if_neg hayk]
      · rw [if_neg hak]
        show (if a = k' then some v else dictLookup (dictUpsert rest k init f) k')
          = (if a = k' then some v else dictLookup rest k')
        by_cases hak' : a = k'
        · rw [if_pos hak', if_pos hak']
        · rw [if_neg hak', if_neg hak', ih]

theorem dictUpsert_dictLE (m : List (Nat × ProfileDetails)) (k : Nat)
    (init : ProfileDetails) (f : ProfileDetails → ProfileDetails)
    (hf : ∀ v, DetailsLE v (f v)) : DictLE m (dictUpsert m k init f) := by
  intro k' pd h
  by_cases hk : k' = k
  · subst hk
    rw [dictLookup_upsert_same, h]
    exact ⟨f pd, rfl, hf pd⟩
  · rw [dictLookup_upsert_other m k k' init f hk]
    exact ⟨pd, h, DetailsLE_refl pd⟩

theorem addEventIds_le (credit_id disbursement_id : Option Nat)
    (pd : ProfileDetails) : DetailsLE pd (addEventIds credit_id disbursement_id pd) := by
  unfold addEventIds
  rcases credit_id with _ | c <;> rcases disbursement_id with _ | i <;> dsimp only
  · exact DetailsLE_refl pd
  · split_ifs <;> exact ⟨Finset.Subset.refl _, by first
      | exact Finset.subset_insert _ _
      | exact Finset.Subset.refl _⟩
  · split_ifs <;> exact ⟨by first
      | exact Finset.subset_insert _ _
      | exact Finset.Subset.refl _, Finset.Subset.refl _⟩
  · split_ifs <;>
      exact ⟨by first
        | exact Finset.subset_insert _ _
        | exact Finset.Subset.refl _, by first
        | exact Finset.subset_insert _ _
        | exact Finset.Subset.refl _⟩

theorem addEventIds_credit_mem (c : Nat) (hc : c ≠ 0) (disbursement_id : Option Nat)
    (pd : ProfileDetails) :
    c ∈ (addEventIds (some c) disbursement_id pd).credit_ids := by
  unfold addEventIds
  rcases disbursement_id with _ | i <;> dsimp only <;> rw [if_pos hc]
  · exact Finset.mem_insert_self c _
  · split_ifs <;> exact Finset.mem_insert_self c _

theorem addEventIds_disb_mem (i : Nat) (hi : i ≠ 0) (credit_id : Option Nat)
    (pd : ProfileDetails) :
    i ∈ (addEventIds credit_id (some i) pd).disbursement_ids := by
  unfold addEventIds
  rcases credit_id with _ | c <;> dsimp only <;> rw [if_pos hi] <;>
    exact Finset.mem_insert_self i _

/-- The group's entry for the event's sender / prisoner profile contains
the event's truthy credit and disbursement ids. -/
def RecordsEvent (e : Event) (g : DateGroup) : Prop :=
  (∀ p, e.sender_profile = some p →
    ∃ pd, dictLookup g.senders p.id = some pd
      ∧ (∀ c, e.credit_id = some c → c ≠ 0 → c ∈ pd.credit_ids)
      ∧ (∀ i, e.disbursement_id = some i → i ≠ 0 → i ∈ pd.disbursement_ids))
  ∧ (∀ q, e.prisoner_profile = some q →
    ∃ pd, dictLookup g.prisoners q.id = some pd
      ∧ (∀ c, e.credit_id = some c → c ≠ 0 → c ∈ pd.credit_ids)
      ∧ (∀ i, e.disbursement_id = some i → i ≠ 0 → i ∈ pd.disbursement_ids))

theorem RecordsEvent_mono (e : Event) {g g' : DateGroup}
    (hle : GroupLE g g') (h : RecordsEvent e g) : RecordsEvent e g' := by
  constructor
  · intro p hp
    obtain ⟨pd, hpd, hcs, his⟩ := h.1 p hp
    obtain ⟨pd', hpd', hle'⟩ := hle.2.1 p.id pd hpd
    exact ⟨pd', hpd', fun c h1 h2 => hle'.1 (hcs c h1 h2),
      fun i h1 h2 => hle'.2 (his i h1 h2)⟩
  · intro q hq
    obtain ⟨pd, hpd, hcs, his⟩ := h.2 q hq
    obtain ⟨pd', hpd', hle'⟩ := hle.2.2 q.id pd hpd
    exact ⟨pd', hpd', fun c h1 h2 => hle'.1 (hcs c h1 h2),
      fun i h1 h2 => hle'.2 (his i h1 h2)⟩

theorem addEventToGroup_groupLE (e : Event) (g : DateGroup) :
    GroupLE g (addEventToGroup e g) := by
  unfold addEventToGroup
  rcases hs : e.sender_profile with _ | p <;> rcases hq : e.prisoner_profile with _ | q <;>
    dsimp only
  · exact GroupLE_refl g
  · exact ⟨rfl, DictLE_refl _,
      dictUpsert_dictLE _ _ _ _ (fun v => addEventIds_le _ _ v)⟩
  · exact ⟨rfl, dictUpsert_dictLE _ _ _ _ (fun v => addEventIds_le _ _ v),
      DictLE_refl _⟩
  · exact ⟨rfl, dictUpsert_dictLE _ _ _ _ (fun v => addEventIds_le _ _ v),
      dictUpsert_dictLE _ _ _ _ (fun v => addEventIds_le _ _ v)⟩

theorem addEventToGroup_records (e : Event) (g : DateGroup) :
    RecordsEvent e (addEventToGroup e g) := by
  unfold addEventToGroup
  constructor
  · intro p hp
    rw [hp]
    rcases hq : e.prisoner_profile with _ | q <;> dsimp only <;>
      rw [dictLookup_upsert_same] <;>
      exact ⟨_, rfl, fun c h1 h2 => h1 ▸ addEventIds_credit_mem c h2 _ _,
        fun i h1 h2 => h1 ▸ addEventIds_disb_mem i h2 _ _⟩
  · intro q hq
    rw [hq]
    rcases hs : e.sender_profile with _ | p <;> dsimp only <;>
      rw [dictLookup_upsert_same] <;>
      exact ⟨_, rfl, fun c h1 h2 => h1 ▸ addEventIds_credit_mem c h2 _ _,
        fun i h1 h2 => h1 ▸ addEventIds_disb_mem i h2 _ _⟩

theorem stepRev_preserves (acc : List DateGroup) (e : Event) :
    ∀ g ∈ acc, ∃ g' ∈ stepRev acc e, GroupLE g g' := by
  intro g hg
  cases acc with
  | nil => cases hg
  | cons h rest =>
      show ∃ g' ∈ (if h.date ≠ some (eventDate e) then
          addEventToGroup e (make_date_group (some (eventDate e))) :: h :: rest
        else addEventToGroup e h :: rest), GroupLE g g'
      by_cases hd : h.date ≠ some (eventDate e)
      · rw [if_pos hd]
        exact ⟨g, List.mem_cons_of_mem _ hg, GroupLE_refl g⟩
      · rw [if_neg hd]
        rcases List.mem_cons.mp hg with rfl | hg'
        · exact ⟨addEventToGroup e g, List.mem_cons_self _ _, addEventToGroup_groupLE e g⟩
        · exact ⟨g, List.mem_cons_of_mem _ hg', GroupLE_refl g⟩

theorem groupEventsRev_preserves (es : List Event) :
    ∀ acc g, g ∈ acc → ∃ g' ∈ groupEventsRev es acc, GroupLE g g' := by
  induction es with
  | nil => exact fun acc g hg => ⟨g, hg, GroupLE_refl g⟩
  | cons e rest ih =>
      intro acc g hg
      obtain ⟨g1, hg1, hle1⟩ := stepRev_preserves acc e g hg
      obtain ⟨g2, hg2, hle2⟩ := ih (stepRev acc e) g1 hg1
      exact ⟨g2, hg2, GroupLE_trans hle1 hle2⟩

theorem stepRev_head (acc : List DateGroup) (e : Event) :
    ∃ g rest', stepRev acc e = g :: rest'
      ∧ g.date = some (eventDate e) ∧ RecordsEvent e g := by
  cases acc with
  | nil =>
      refine ⟨addEventToGroup e (make_date_group (some (eventDate e))), [], rfl, ?_,
        addEventToGroup_records e _⟩
      rw [addEventToGroup_date]
      rfl
  | cons h rest =>
      by_cases hd : h.date ≠ some (eventDate e)
      · refine ⟨addEventToGroup e (make_date_group (some (eventDate e))), h :: rest,
          ?_, ?_, addEventToGroup_records e _⟩
        · simp [stepRev, hd]
        · rw [addEventToGroup_date]
          rfl
      · refine ⟨addEventToGroup e h, rest, ?_, ?_, addEventToGroup_records e h⟩
        · simp [stepRev, hd]
        · rw [addEventToGroup_date]
          exact not_not.mp hd

theorem groupEventsRev_records (es : List Event) :
    ∀ acc e, e ∈ es →
      ∃ g ∈ groupEventsRev es acc, g.date = some (eventDate e) ∧ RecordsEvent e g := by
  induction es with
  | nil => intro acc e h; cases h
  | cons e0 rest ih =>
      intro acc e he
      rcases List.mem_cons.mp he with rfl | he'
      · obtain ⟨g, rest', heq, hdate, hrec⟩ := stepRev_head acc e
        have hmem : g ∈ stepRev acc e := by
          rw [heq]
          exact List.mem_cons_self _ _
        obtain ⟨g', hg', hle⟩ := groupEventsRev_preserves rest (stepRev acc e) g hmem
        exact ⟨g', hg', hle.1 ▸ hdate, RecordsEvent_mono e hle hrec⟩
      · exact ih (stepRev acc e0) e he'

/-- C1, amended: the claim as stated fails when equal-date events are not
adjacent (the counterexample); for every list of events in which events of
the same calendar date are adjacent — as holds for the API's
`-triggered_at`-ordered events — `group_events_by_date` produces exactly
one date group per distinct date of the events, in order of first
occurrence, and every event's truthy credit and disbursement ids are
accumulated into the sender and prisoner entries (keyed by profile id) of
the group bearing that event's date. -/
theorem claim_C1_amended (events : List Event)
    (hadj : (collapseFrom none (events.map eventDate)).Nodup) :
    (group_events_by_date events).map DateGroup.date
        = (firstOccDedup (events.map eventDate)).map some
    ∧ ((group_events_by_date events).map DateGroup.date).Nodup
    ∧ (∀ d, some d ∈ (group_events_by_date events).map DateGroup.date
        ↔ d ∈ events.map eventDate)
    ∧ (∀ e ∈ events, ∃ g ∈ group_events_by_date events,
        g.date = some (eventDate e) ∧ RecordsEvent e g) := by
  have hdates : (group_events_by_date events).map DateGroup.date
      = (collapseFrom none (events.map eventDate)).map some := by
    have h := groupEventsRev_dates events []
    simpa [group_events_by_date, headDateOf] using h
  refine ⟨?_, ?_, ?_, ?_⟩
  · rw [hdates, collapse_none_eq _ hadj]
  · rw [hdates]
    exact List.Nodup.map (fun a b h => Option.some.inj h) hadj
  · intro d
    rw [hdates, collapse_none_eq _ hadj]
    constructor
    · intro hmem
      obtain ⟨x, hx, hxd⟩ := List.mem_map.mp hmem
      obtain rfl := Option.some.inj hxd
      exact (mem_firstOccDedup _ _).mp hx
    · intro hmem
      exact List.mem_map.mpr ⟨d, (mem_firstOccDedup _ _).mpr hmem, rfl⟩
  · intro e he
    obtain ⟨g, hg, hd, hr⟩ := groupEventsRev_records events [] e he
    refine ⟨g, ?_, hd, hr⟩
    simpa [group_events_by_date, List.mem_reverse] using hg

/-- Two same-day events for the C1 witness. -/
def witnessEventC1a : Event :=
  ⟨⟨⟨2020, 1, 1⟩, 9, 0, 0⟩, some ⟨11, "Alice"⟩, none, some 100, none⟩

/-- Second witness event: same day, sender and prisoner profiles, one
credit and one disbursement. -/
def witnessEventC1b : Event :=
  ⟨⟨⟨2020, 1, 1⟩, 8, 0, 0⟩, some ⟨11, "Alice"⟩, some ⟨21, "Bob", "A1234BC"⟩,
    some 101, some 200⟩

/-- The witness event list for the amended C1. -/
def witnessEventsC1 : List Event := [witnessEventC1a, witnessEventC1b]

/-- Witness for the amended C1 at two same-day events. -/
theorem claim_C1_witness :
    (group_events_by_date witnessEventsC1).map DateGroup.date
      = (firstOccDedup (witnessEventsC1.map eventDate)).map some
    ∧ ∃ g ∈ group_events_by_date witnessEventsC1,
        g.date = some (eventDate witnessEventC1b) ∧ RecordsEvent witnessEventC1b g :=
  ⟨(claim_C1_amended witnessEventsC1 (by decide)).1,
   (claim_C1_amended witnessEventsC1 (by decide)).2.2.2 witnessEventC1b (by decide)⟩

/-- `sorted(..., key=lambda s: s['description'])`: the sort key. -/
def descLE (a b : ProfileDetails) : Prop := a.description ≤ b.description

instance : DecidableRel descLE := fun a b =>
  inferInstanceAs (Decidable (a.description ≤ b.description))

instance : IsTotal ProfileDetails descLE :=
  ⟨fun a b => le_total a.description b.description⟩

instance : IsTrans ProfileDetails descLE :=
  ⟨fun _ _ _ hab hbc => le_trans hab hbc⟩

/-- One sender entry of a summarised date group. -/
structure ProfileSummary where
  id : Nat
  transaction_count : Nat
  description : String
deriving DecidableEq

/-- One prisoner entry of a summarised date group. -/
structure PrisonerSummary where
  id : Nat
  transaction_count : Nat
  description : String
  disbursements_only : Bool
deriving DecidableEq

/-- The result of `summarise_date_group`. -/
structure DateGroupSummary where
  date : Option Date
  transaction_count : Nat
  senders : List ProfileSummary
  prisoners : List PrisonerSummary
deriving DecidableEq

/-- The sender summary built in the first loop of `summarise_date_group`. -/
def senderSummary (s : ProfileDetails) : ProfileSummary :=
  ⟨s.id, s.credit_ids.card, s.description⟩

/-- The prisoner summary built in the second loop: `disbursements_only` is
`bool(disbursement_ids and not credit_ids)`. -/
def prisonerSummary (p : ProfileDetails) : PrisonerSummary :=
  ⟨p.id, p.credit_ids.card + p.disbursement_ids.card, p.description,
    decide (p.disbursement_ids ≠ ∅ ∧ p.credit_ids = ∅)⟩

/-- `summarise_date_group`: sort each dict's values by description, emit
summaries, and accumulate the total transaction count (distinct credits
for senders; distinct credits plus distinct disbursements for prisoners). -/
def summarise_date_group (date_group : DateGroup) : DateGroupSummary :=
  let senders := List.insertionSort descLE (date_group.senders.map Prod.snd)
  let prisoners := List.insertionSort descLE (date_group.prisoners.map Prod.snd)
  { date := date_group.date
    transaction_count :=
      (senders.map (fun s => s.credit_ids.card)).sum
        + (prisoners.map (fun p => p.credit_ids.card + p.disbursement_ids.card)).sum
    senders := senders.map senderSummary
    prisoners := prisoners.map prisonerSummary }

/-- C2: the summary's `transaction_count` is the sum over the group's
senders of their distinct credit ids plus the sum over its prisoners of
their distinct credit and disbursement ids; sender and prisoner summaries
are in ascending order of description; and `disbursements_only` is true
exactly for a prisoner with at least one disbursement id and no credit id. -/
theorem claim_C2 (dg : DateGroup) :
    (summarise_date_group dg).transaction_count
      = ((dg.senders.map Prod.snd).map (fun s => s.credit_ids.card)).sum
        + ((dg.prisoners.map Prod.snd).map
            (fun p => p.credit_ids.card + p.disbursement_ids.card)).sum
    ∧ ((summarise_date_group dg).senders.map ProfileSummary.description).Pairwise (· ≤ ·)
    ∧ ((summarise_date_group dg).prisoners.map PrisonerSummary.description).Pairwise (· ≤ ·)
    ∧ (∀ pd ∈ dg.senders.map Prod.snd,
        senderSummary pd ∈ (summarise_date_group dg).senders)
    ∧ (∀ s ∈ (summarise_date_group dg).senders,
        ∃ pd ∈ dg.senders.map Prod.snd, s = senderSummary pd)
    ∧ (∀ pd ∈ dg.prisoners.map Prod.snd,
        prisonerSummary pd ∈ (summarise_date_group dg).prisoners)
    ∧ (∀ s ∈ (summarise_date_group dg).prisoners,
        ∃ pd ∈ dg.prisoners.map Prod.snd,
          s.id = pd.id ∧ s.description = pd.description
          ∧ s.transaction_count = pd.credit_ids.card + pd.disbursement_ids.card
          ∧ (s.disbursements_only = true
              ↔ (pd.disbursement_ids ≠ ∅ ∧ pd.credit_ids = ∅))) := by
  have hsperm : List.Perm (List.insertionSort descLE (dg.senders.map Prod.snd))
      (dg.senders.map Prod.snd) := List.perm_insertionSort descLE _
  have hpperm : List.Perm (List.insertionSort descLE (dg.prisoners.map Prod.snd))
      (dg.prisoners.map Prod.snd) := List.perm_insertionSort descLE _
  unfold summarise_date_group
  dsimp only
  refine ⟨?_, ?_, ?_, ?_, ?_, ?_, ?_⟩
  · rw [List.Perm.sum_eq (hsperm.map _), List.Perm.sum_eq (hpperm.map _)]
  · rw [List.map_map, List.pairwise_map]
    exact (List.sorted_insertionSort descLE _).imp (fun h => h)
  · rw [List.map_map, List.pairwise_map]
    exact (List.sorted_insertionSort descLE _).imp (fun h => h)
  · intro pd hpd
    exact List.mem_map_of_mem _ (hsperm.mem_iff.mpr hpd)
  · intro s hs
    obtain ⟨pd, hpd, heq⟩ := List.mem_map.mp hs
    exact ⟨pd, hsperm.mem_iff.mp hpd, heq.symm⟩
  · intro pd hpd
    exact List.mem_map_of_mem _ (hpperm.mem_iff.mpr hpd)
  · intro s hs
    obtain ⟨pd, hpd, heq⟩ := List.mem_map.mp hs
    subst heq
    exact ⟨pd, hpperm.mem_iff.mp hpd, rfl, rfl, rfl, by
      simp [prisonerSummary]⟩

/-- Witness group for C2: one sender with two credits, one prisoner with a
single disbursement and no credits. -/
def witnessGroupC2 : DateGroup :=
  ⟨some ⟨2020, 1, 1⟩,
   [(11, ⟨11, "Alice", insert 100 (insert 101 ∅), ∅⟩)],
   [(21, ⟨21, "Bob (A1234BC)", ∅, insert 200 ∅⟩)]⟩

/-- Witness for C2: the concrete group's total is 3 and the prisoner entry
is marked disbursements-only. -/
theorem claim_C2_witness :
    (summarise_date_group witnessGroupC2).transaction_count
      = ((witnessGroupC2.senders.map Prod.snd).map (fun s => s.credit_ids.card)).sum
        + ((witnessGroupC2.prisoners.map Prod.snd).map
            (fun p => p.credit_ids.card + p.disbursement_ids.card)).sum
    ∧ prisonerSummary ⟨21, "Bob (A1234BC)", ∅, insert 200 ∅⟩
        ∈ (summarise_date_group witnessGroupC2).prisoners :=
  ⟨(claim_C2 witnessGroupC2).1,
   (claim_C2 witnessGroupC2).2.2.2.2.2.1 ⟨21, "Bob (A1234BC)", ∅, insert 200 ∅⟩
     (by decide)⟩
